import Mathlib

/-!
Shallow embedding of the hdrfix HDR-to-SDR color pipeline (src/main.rs) and
of the oklab crate functions it calls.  f32 arithmetic is modelled over ℝ
(f32 decimal literals are taken at their exact decimal values); byte stores
are lists of ℕ; Rust `Option`/panics are modelled with Lean `Option`, where
`none` marks a panic.  Histogram and level machinery, whose claims need
executable witnesses, is modelled over ℚ (the luminance values are plain
f32 data, so only their ordering matters there).
-/

namespace Hdrfix

/-- glam's `Vec3`, modelled with real components. -/
structure Vec3 where
  x : ℝ
  y : ℝ
  z : ℝ

/-- The oklab crate's `Oklab` struct (lightness and two chroma axes). -/
structure Oklab where
  l : ℝ
  a : ℝ
  b : ℝ

noncomputable section

/-- glam `Vec3::max_element`. -/
def Vec3.max_element (v : Vec3) : ℝ := max v.x (max v.y v.z)

/-- Componentwise scalar multiple (used to state scaling lemmas). -/
def Vec3.smul (k : ℝ) (v : Vec3) : Vec3 := ⟨k * v.x, k * v.y, k * v.z⟩

/-- Real cube root: model of `f32::cbrt` used by the oklab crate
(odd extension of the nonnegative real power `x ^ (1/3)`). -/
def rcbrt (x : ℝ) : ℝ :=
  if x < 0 then -((-x) ^ ((1 : ℝ) / 3)) else x ^ ((1 : ℝ) / 3)

/-- oklab crate: `linear_srgb_to_oklab` (the `RGB<f32>` argument is the same
triple of floats as the `Vec3`, so the trivial `scrgb_to_linear_srgb`
conversion is collapsed). -/
def linear_srgb_to_oklab (c : Vec3) : Oklab :=
  let l := 0.4122214708 * c.x + 0.5363325363 * c.y + 0.0514459929 * c.z
  let m := 0.2119034982 * c.x + 0.6806995451 * c.y + 0.1073969566 * c.z
  let s := 0.0883024619 * c.x + 0.2817188376 * c.y + 0.6299787005 * c.z
  let l_ := rcbrt l
  let m_ := rcbrt m
  let s_ := rcbrt s
  { l := 0.2104542553 * l_ + 0.7936177850 * m_ - 0.0040720468 * s_
    a := 1.9779984951 * l_ - 2.4285922050 * m_ + 0.4505937099 * s_
    b := 0.0259040371 * l_ + 0.7827717662 * m_ - 0.8086757660 * s_ }

/-- oklab crate: `oklab_to_linear_srgb` (`l_*l_*l_` written as `l_ ^ 3`). -/
def oklab_to_linear_srgb (c : Oklab) : Vec3 :=
  let l_ := c.l + 0.3963377774 * c.a + 0.2158037573 * c.b
  let m_ := c.l - 0.1055613458 * c.a - 0.0638541728 * c.b
  let s_ := c.l - 0.0894841775 * c.a - 1.2914855480 * c.b
  let l := l_ ^ 3
  let m := m_ ^ 3
  let s := s_ ^ 3
  { x := 4.0767416621 * l - 3.3077115913 * m + 0.2309699292 * s
    y := -1.2684380046 * l + 2.6097574011 * m - 0.3413193965 * s
    z := -0.0041960863 * l - 0.7034186147 * m + 1.7076147010 * s }

/-- `scrgb_to_oklab` from main.rs (the `RGB` wrapper is a field shuffle). -/
def scrgb_to_oklab (c : Vec3) : Oklab := linear_srgb_to_oklab c

/-- `oklab_to_scrgb` from main.rs. -/
def oklab_to_scrgb (c : Oklab) : Vec3 := oklab_to_linear_srgb c

/-- `luma_oklab`: zero the chroma, convert back to linear, take the red
channel of the resulting gray. -/
def luma_oklab (val : Oklab) : ℝ :=
  let oklab_gray : Oklab := { l := val.l, a := 0, b := 0 }
  let rgb_gray := oklab_to_scrgb oklab_gray
  rgb_gray.x

/-- `luma_scrgb` from main.rs. -/
def luma_scrgb (val : Vec3) : ℝ := luma_oklab (scrgb_to_oklab val)

/-- `oklab_l_for_luma`: oklab lightness of the gray with the given luma. -/
def oklab_l_for_luma (luma : ℝ) : ℝ :=
  (linear_srgb_to_oklab ⟨luma, luma, luma⟩).l

/-- `clip`: clamp every channel to [0, 1] (`input.max(ZERO).min(ONE)`). -/
def clip (input : Vec3) : Vec3 :=
  ⟨min (max input.x 0) 1, min (max input.y 0) 1, min (max input.z 0) 1⟩

/-- `EPSILON` from main.rs. -/
def EPSILON : ℝ := 0.001

/-- `close_enough`: three-way comparison collapsing an EPSILON band to
`Ordering::Equal` (Rust `Less`/`Equal`/`Greater` are `.lt`/`.eq`/`.gt`;
the Rust local `delta` is inlined as `a - b`). -/
def close_enough (a b : ℝ) : Ordering :=
  if |a - b| < EPSILON then .eq
  else if a - b < 0 then .lt
  else .gt

theorem close_enough_eq_iff (a b : ℝ) :
    close_enough a b = .eq ↔ |a - b| < EPSILON := by
  unfold close_enough
  split_ifs <;> simp_all

theorem epsilon_pos : (0 : ℝ) < EPSILON := by norm_num [EPSILON]

theorem bsearch_measure_decr {lo hi : ℝ} (h : EPSILON ≤ |lo - hi|) :
    (⌊(|lo - hi| / 2) / EPSILON⌋).toNat < (⌊|lo - hi| / EPSILON⌋).toNat := by
  set w := |lo - hi| with hw
  have hε := epsilon_pos
  have hx1 : (1 : ℝ) ≤ w / EPSILON := (one_le_div hε).mpr h
  have hfl1 : (1 : ℤ) ≤ ⌊w / EPSILON⌋ := by
    exact_mod_cast Int.le_floor.mpr (by exact_mod_cast hx1)
  have hhalf : w / 2 / EPSILON = (w / EPSILON) / 2 := by ring
  have hlt : (w / EPSILON) / 2 < (⌊w / EPSILON⌋ : ℝ) := by
    have h2 : w / EPSILON < 2 * (⌊w / EPSILON⌋ : ℝ) := by
      have := Int.lt_floor_add_one (w / EPSILON)
      have h1le : (1 : ℝ) ≤ (⌊w / EPSILON⌋ : ℝ) := by exact_mod_cast hfl1
      linarith
    linarith
  have : ⌊w / 2 / EPSILON⌋ < ⌊w / EPSILON⌋ := by
    rw [hhalf]
    exact Int.floor_lt.mpr (by exact_mod_cast hlt)
  have hpos : 0 < ⌊w / EPSILON⌋ := by omega
  omega

/-- `binary_search` from main.rs.  The outer Rust `match` on
`close_enough(min, max)` (`Equal => result, _ => …`) is rendered as a
decidable test against `.eq`; the termination measure is the number of
EPSILON widths in the bracket, which halves on every recursive call. -/
def binary_search {I O : Type} (input : I) (min max : ℝ)
    (func : I → ℝ → O) (comparator : O → Ordering) : O :=
  let mid := (min + max) / 2
  let result := func input mid
  if h : close_enough min max = .eq then result
  else
    match comparator result with
    | .lt => binary_search input mid max func comparator
    | .gt => binary_search input min mid func comparator
    | .eq => result
termination_by (⌊|min - max| / EPSILON⌋).toNat
decreasing_by
  · have hge : EPSILON ≤ |min - max| := by
      by_contra hc
      exact h ((close_enough_eq_iff min max).mpr (by linarith [not_le.mp hc]))
    have h2 : |(min + max) / 2 - max| = |min - max| / 2 := by
      rw [show (min + max) / 2 - max = (min - max) / 2 by ring, abs_div]
      norm_num
    calc (⌊|(min + max) / 2 - max| / EPSILON⌋).toNat
        = (⌊(|min - max| / 2) / EPSILON⌋).toNat := by rw [h2]
      _ < (⌊|min - max| / EPSILON⌋).toNat := bsearch_measure_decr hge
  · have hge : EPSILON ≤ |min - max| := by
      by_contra hc
      exact h ((close_enough_eq_iff min max).mpr (by linarith [not_le.mp hc]))
    have h2 : |min - (min + max) / 2| = |min - max| / 2 := by
      rw [show min - (min + max) / 2 = (min - max) / 2 by ring, abs_div]
      norm_num
    calc (⌊|min - (min + max) / 2| / EPSILON⌋).toNat
        = (⌊(|min - max| / 2) / EPSILON⌋).toNat := by rw [h2]
      _ < (⌊|min - max| / EPSILON⌋).toNat := bsearch_measure_decr hge

/-- Call counter for `binary_search`: number of evaluations of `func`
(the initial call plus one per recursive call), mirroring the recursion
structure exactly. -/
def binary_search_calls {I O : Type} (input : I) (min max : ℝ)
    (func : I → ℝ → O) (comparator : O → Ordering) : ℕ :=
  let mid := (min + max) / 2
  let result := func input mid
  if h : close_enough min max = .eq then 1
  else
    match comparator result with
    | .lt => 1 + binary_search_calls input mid max func comparator
    | .gt => 1 + binary_search_calls input min mid func comparator
    | .eq => 1
termination_by (⌊|min - max| / EPSILON⌋).toNat
decreasing_by
  · have hge : EPSILON ≤ |min - max| := by
      by_contra hc
      exact h ((close_enough_eq_iff min max).mpr (by linarith [not_le.mp hc]))
    have h2 : |(min + max) / 2 - max| = |min - max| / 2 := by
      rw [show (min + max) / 2 - max = (min - max) / 2 by ring, abs_div]
      norm_num
    calc (⌊|(min + max) / 2 - max| / EPSILON⌋).toNat
        = (⌊(|min - max| / 2) / EPSILON⌋).toNat := by rw [h2]
      _ < (⌊|min - max| / EPSILON⌋).toNat := bsearch_measure_decr hge
  · have hge : EPSILON ≤ |min - max| := by
      by_contra hc
      exact h ((close_enough_eq_iff min max).mpr (by linarith [not_le.mp hc]))
    have h2 : |min - (min + max) / 2| = |min - max| / 2 := by
      rw [show min - (min + max) / 2 = (min - max) / 2 by ring, abs_div]
      norm_num
    calc (⌊|min - (min + max) / 2| / EPSILON⌋).toNat
        = (⌊(|min - max| / 2) / EPSILON⌋).toNat := by rw [h2]
      _ < (⌊|min - max| / EPSILON⌋).toNat := bsearch_measure_decr hge

/-- `darken_oklab`: scale all three oklab coordinates by `brightness` and
convert back to linear. -/
def darken_oklab (c_in : Oklab) (brightness : ℝ) : Vec3 :=
  oklab_to_scrgb
    { l := c_in.l * brightness, a := c_in.a * brightness, b := c_in.b * brightness }

/-- `desat_oklab`: scale only the chroma coordinates by `saturation`. -/
def desat_oklab (c_in : Oklab) (saturation : ℝ) : Vec3 :=
  oklab_to_scrgb
    { l := c_in.l, a := c_in.a * saturation, b := c_in.b * saturation }

/-- `color_clip` from main.rs. -/
def color_clip (input : Vec3) : Vec3 := clip input

/-- The comparator closure `|rgb| close_enough(rgb.max_element(), 1.0)`
shared by `color_darken_oklab` and `color_desat_oklab` (named so that the
search can be reasoned about; it is the same function value). -/
def gamut_cmp (rgb : Vec3) : Ordering := close_enough rgb.max_element 1

/-- `color_darken_oklab`: bisection over a brightness scale in [0,1] for
out-of-gamut samples; identity otherwise. -/
def color_darken_oklab (c_in : Vec3) : Vec3 :=
  if c_in.max_element > 1 then
    clip (binary_search (scrgb_to_oklab c_in) 0 1 darken_oklab gamut_cmp)
  else c_in

/-- `color_desat_oklab`: bisection over a chroma scale in [0,1] for
out-of-gamut samples; identity otherwise. -/
def color_desat_oklab (c_in : Vec3) : Vec3 :=
  if c_in.max_element > 1 then
    clip (binary_search (scrgb_to_oklab c_in) 0 1 desat_oklab gamut_cmp)
  else c_in

/-- Scalar branch of `linear_to_srgb`: the per-channel value that
`Vec3::select(val.cmple(min), linear, gamma)` picks (linear segment when
`v ≤ 0.0031308`).  Note that the source raises `val * 1.055` to the power
1/2.4 before subtracting 0.055 (see claim C2). -/
def linear_to_srgb_c (v : ℝ) : ℝ :=
  if v ≤ 0.0031308 then v * 12.92 else (v * 1.055) ^ ((1 : ℝ) / 2.4) - 0.055

/-- `linear_to_srgb`: componentwise transfer function, then `clip`. -/
def linear_to_srgb (val : Vec3) : Vec3 :=
  clip ⟨linear_to_srgb_c val.x, linear_to_srgb_c val.y, linear_to_srgb_c val.z⟩

/-- Rust `as u8` applied to an f32 that the pipeline has already clamped to
[0, 255]: truncation toward zero (the cast saturates outside that range, a
case the surrounding clip makes unreachable). -/
def byte_of_real (x : ℝ) : ℕ := (⌊x⌋).toNat

/-- `write_srgb_rgb24`: gamma-encode, clip, scale by 255, truncate each
channel to a byte; the 3-byte pixel chunk is fully overwritten. -/
def write_srgb_rgb24 (_data : List ℕ) (val : Vec3) : List ℕ :=
  let gamma_out := linear_to_srgb val
  let clipped := clip gamma_out
  [byte_of_real (clipped.x * 255), byte_of_real (clipped.y * 255),
    byte_of_real (clipped.z * 255)]

/-- `read_srgb_rgb24` is an unimplemented stub: it panics (`none`) on every
input. -/
def read_srgb_rgb24 (_data : List ℕ) : Option Vec3 := none

/-- `write_rec2100_rgb24` is an unimplemented stub: it panics (`none`) on
every input. -/
def write_rec2100_rgb24 (_data : List ℕ) (_rgb : Vec3) : Option (List ℕ) := none

/-- Per-channel inverse perceptual quantizer (`pq_to_linear` applies it to
each component; `powf` is modelled by the real power). -/
def pq_to_linear_c (v : ℝ) : ℝ :=
  let inv_m1 : ℝ := 1 / 0.1593017578125
  let inv_m2 : ℝ := 1 / 78.84375
  let c1 : ℝ := 0.8359375
  let c2 : ℝ := 18.8515625
  let c3 : ℝ := 18.6875
  let val_powered := v ^ inv_m2
  (max (val_powered - c1) 0 / (c2 - c3 * val_powered)) ^ inv_m1

/-- `pq_to_linear` from main.rs. -/
def pq_to_linear (val : Vec3) : Vec3 :=
  ⟨pq_to_linear_c val.x, pq_to_linear_c val.y, pq_to_linear_c val.z⟩

/-- `REC2100_MAX`: the 1.0 value for BT.2100 linear, in nits. -/
def REC2100_MAX : ℝ := 10000

/-- `SDR_WHITE` in nits. -/
def SDR_WHITE : ℝ := 80

/-- `rec2100_to_scrgb`: fixed gamut matrix (glam `from_cols_array` is
column-major, so the rows below are the matrix rows) after scaling by
`REC2100_MAX / SDR_WHITE`. -/
def rec2100_to_scrgb (val : Vec3) : Vec3 :=
  let scale := REC2100_MAX / SDR_WHITE
  let v := Vec3.smul scale val
  ⟨1.6605 * v.x - 0.5876 * v.y - 0.0728 * v.z,
    -0.1246 * v.x + 1.1329 * v.y - 0.0083 * v.z,
    -0.0182 * v.x - 0.1006 * v.y + 1.1187 * v.z⟩

/-- `read_rec2100_rgb24`: bytes scaled by 1/255, PQ-decoded, gamut-mapped.
(The Rust indexing panics on a short chunk; chunks here always have the 3
bytes `PixelBuffer` allocates, so `getD` is never out of bounds.) -/
def read_rec2100_rgb24 (data : List ℕ) : Option Vec3 :=
  let rgb_rec2100 : Vec3 :=
    ⟨(data.getD 0 0 : ℕ) / 255, ((data.getD 1 0 : ℕ) : ℝ) / 255,
      ((data.getD 2 0 : ℕ) : ℝ) / 255⟩
  some (rec2100_to_scrgb (pq_to_linear rgb_rec2100))

/-- `read_scrgb_rgb128float`: the `transmute` reinterpretation of 4 bytes as
an f32 is kept abstract as the `dec` parameter (memory layout is outside the
shallow embedding); the three floats sit at byte offsets 0, 4 and 8 of the
16-byte pixel. -/
def read_scrgb_rgb128float (dec : List ℕ → ℝ) (data : List ℕ) : Option Vec3 :=
  some ⟨dec (data.take 4), dec ((data.drop 4).take 4), dec ((data.drop 8).take 4)⟩

/-- `write_scrgb_rgb128float`: writes the three floats (abstract encoder
`enc`), leaving the tail of the 16-byte pixel unchanged. -/
def write_scrgb_rgb128float (enc : ℝ → List ℕ) (data : List ℕ) (rgb : Vec3) :
    Option (List ℕ) :=
  some (enc rgb.x ++ enc rgb.y ++ enc rgb.z ++ data.drop 12)

end

/-- `PixelFormat` from main.rs. -/
inductive PixelFormat where
  | SDR8bit
  | HDR8bit
  | HDRFloat32
deriving DecidableEq

/-- A buffer operation through the per-encoding dispatch table:
`map`/`par_iter_rgb` reads pixels via `read_rgb_func`, `fill` writes them
via `write_rgb_func`. -/
inductive BufOp where
  | read
  | write
deriving DecidableEq

/-- `PixelBuffer`: byte store plus the dispatch functions chosen at
construction (`none` results model the panics of the unimplemented
encodings). -/
structure PixelBuffer where
  width : ℕ
  height : ℕ
  bytes_per_pixel : ℕ
  data : List ℕ
  read_rgb_func : List ℕ → Option Vec3
  write_rgb_func : List ℕ → Vec3 → Option (List ℕ)

noncomputable section

/-- The read half of `PixelBuffer::new`'s dispatch table. -/
def format_read (dec : List ℕ → ℝ) : PixelFormat → List ℕ → Option Vec3
  | .SDR8bit => read_srgb_rgb24
  | .HDR8bit => read_rec2100_rgb24
  | .HDRFloat32 => read_scrgb_rgb128float dec

/-- The write half of `PixelBuffer::new`'s dispatch table. -/
def format_write (enc : ℝ → List ℕ) : PixelFormat → List ℕ → Vec3 → Option (List ℕ)
  | .SDR8bit => fun d v => some (write_srgb_rgb24 d v)
  | .HDR8bit => write_rec2100_rgb24
  | .HDRFloat32 => write_scrgb_rgb128float enc

/-- `PixelBuffer::new`: 3 or 16 bytes per pixel, zero-filled store of
`stride * height` bytes, dispatch functions fixed by the format. -/
def PixelBuffer.new (dec : List ℕ → ℝ) (enc : ℝ → List ℕ)
    (width height : ℕ) (format : PixelFormat) : PixelBuffer :=
  let bytes_per_pixel : ℕ :=
    match format with
    | .SDR8bit | .HDR8bit => 3
    | .HDRFloat32 => 16
  { width := width
    height := height
    bytes_per_pixel := bytes_per_pixel
    data := List.replicate (width * bytes_per_pixel * height) 0
    read_rgb_func := format_read dec format
    write_rgb_func := format_write enc format }

end

/-- Fuel-driven worker for `toChunks` (structural recursion on the fuel so
that concrete instances reduce definitionally). -/
def toChunksGo {α : Type} (n : ℕ) : ℕ → List α → List (List α)
  | 0, _ => []
  | _ + 1, [] => []
  | fuel + 1, x :: xs => (x :: xs).take n :: toChunksGo n fuel ((x :: xs).drop n)

/-- rayon `par_chunks(n)` / `par_chunks_mut(n)`: successive chunks of `n`
elements, the last possibly shorter (`n` is 3 or 16 here, never 0). -/
def toChunks {α : Type} (n : ℕ) (l : List α) : List (List α) :=
  toChunksGo n l.length l

/-- The per-chunk write pass of `fill` (`for_each` of the zipped pairs): a
`none` write is a panic and aborts the whole pass. -/
def write_all (w : List ℕ → Vec3 → Option (List ℕ)) :
    List (List ℕ × Vec3) → Option (List (List ℕ))
  | [] => some []
  | p :: rest => (w p.1 p.2).bind fun c => (write_all w rest).map fun cs => c :: cs

/-- `PixelBuffer::fill`: zip the pixel chunks with the source sequence —
rayon's `zip` truncates to the shorter side — and overwrite each zipped
chunk through `write_rgb_func`; chunks beyond the zipped length keep their
bytes. -/
def PixelBuffer.fill (b : PixelBuffer) (source : List Vec3) : Option PixelBuffer :=
  let chunks := toChunks b.bytes_per_pixel b.data
  let pairs := chunks.zip source
  (write_all b.write_rgb_func pairs).map fun written =>
    { b with data := (written ++ chunks.drop pairs.length).flatten }

/-- `Histogram`: the ascending list of per-pixel luma values.  The values
are modelled as ℚ (they are plain f32 data whose ordering is all that the
histogram uses; in the program they come from `luma_scrgb`).
`par_sort_unstable_by` with its NaN-collapsing comparator is an ascending
sort; the model has no NaN. -/
structure Histogram where
  luma_vals : List ℚ
deriving DecidableEq

/-- `Histogram::new` on an already-extracted luma list. -/
def Histogram.new (lumas : List ℚ) : Histogram :=
  ⟨lumas.insertionSort (· ≤ ·)⟩

/-- `Histogram::percentile`: index `(n - 1) * target / 100` truncated to an
integer.  The f32 cast/multiply is modelled exactly over ℚ; the Rust
indexing panics out of bounds, which cannot happen for `0 ≤ target ≤ 100`
on a nonempty histogram (claim C4 proves the bound), so `getD` is in
bounds wherever the program calls it. -/
def Histogram.percentile (h : Histogram) (target : ℚ) : ℚ :=
  let max_index := h.luma_vals.length - 1
  let target_index := (⌊(max_index : ℚ) * target / 100⌋).toNat
  h.luma_vals.getD target_index 0

/-- `Level` from main.rs (the payload is the parsed float, modelled as ℚ). -/
inductive Level where
  | Scalar (val : ℚ)
  | Percentile (val : ℚ)
deriving DecidableEq

/-- The `LocalError` variant the level parser can produce (the other
variants belong to excluded collaborators). -/
inductive LocalError where
  | ParseFloatError
deriving DecidableEq

/-- Numeric value of a decimal digit character. -/
def digit_val (c : Char) : ℕ := c.toNat - 48

/-- Value of a digit string, most significant first. -/
def digits_val (l : List Char) : ℕ :=
  l.foldl (fun acc c => 10 * acc + digit_val c) 0

/-- Model of `str::parse::<f32>` (std, an external collaborator) on its
plain decimal fragment: optional sign, then `digits`, `digits.digits`,
`digits.` or `.digits` — at least one digit in total.  Exponent, infinity
and NaN forms are outside the model. -/
def parse_unsigned (s : List Char) : Option ℚ :=
  let ip := s.takeWhile (fun c => c ≠ '.')
  let rest := s.dropWhile (fun c => c ≠ '.')
  match rest with
  | [] =>
    if ip.isEmpty || !ip.all Char.isDigit then none
    else some ((digits_val ip : ℚ))
  | _ :: fp =>
    if (ip.isEmpty && fp.isEmpty) || !ip.all Char.isDigit || !fp.all Char.isDigit
    then none
    else some ((digits_val ip : ℚ) + (digits_val fp : ℚ) / 10 ^ fp.length)

/-- Signed entry point of the float-parse model. -/
def parse_float (s : List Char) : Option ℚ :=
  match s with
  | '+' :: rest => parse_unsigned rest
  | '-' :: rest => (parse_unsigned rest).map Neg.neg
  | _ => parse_unsigned s

/-- `str::strip_suffix`: `some` of the text with the suffix removed exactly
when the string ends with it. -/
def strip_suffix (s suf : List Char) : Option (List Char) :=
  if suf.isSuffixOf s then some (s.take (s.length - suf.length)) else none

/-- `Level::with_str`: a trailing `%` selects the percentile variant, the
numeric part is parsed either way, and a parse failure propagates as
`ParseFloatError`. -/
def Level.with_str (source : List Char) : Except LocalError Level :=
  match strip_suffix source ['%'] with
  | some val =>
    match parse_float val with
    | some q => .ok (.Percentile q)
    | none => .error .ParseFloatError
  | none =>
    match parse_float source with
    | some q => .ok (.Scalar q)
    | none => .error .ParseFloatError

/-- `Lazy<Histogram, F>` as instantiated in the program: `value` is the memo
cell and `func` the builder that `force` takes out exactly once. -/
structure LazyH where
  value : Option Histogram
  func : Option (Unit → Histogram)

/-- `Lazy::new`. -/
def LazyH.new (f : Unit → Histogram) : LazyH := ⟨none, some f⟩

/-- `Lazy::force`: build and memoize on first use; `none` models the
`unwrap` panic when both the memo and the builder are gone (unreachable
from `new`, as claim C5 shows). -/
def LazyH.force (lz : LazyH) : Option (Histogram × LazyH) :=
  match lz.value with
  | some v => some (v, lz)
  | none =>
    match lz.func with
    | some f => some (f (), { value := some (f ()), func := none })
    | none => none

/-- `Lazy::<Histogram>::level`: scalar levels never touch the histogram,
percentile levels force it. -/
def LazyH.level (lz : LazyH) (level : Level) : Option (ℚ × LazyH) :=
  match level with
  | .Scalar val => some (val, lz)
  | .Percentile val => (lz.force).map fun p => (p.1.percentile val, p.2)

/-- Discriminator used to state claim C5. -/
def Level.is_percentile : Level → Bool
  | .Percentile _ => true
  | .Scalar _ => false

/-- Observation harness for claim C5: run a sequence of level queries,
threading the cell state and counting builder invocations (`force` invokes
the builder exactly when the memo is empty and the builder is present). -/
def LazyH.run_levels (lz : LazyH) : List Level → Option (List ℚ × LazyH × ℕ)
  | [] => some ([], lz, 0)
  | lv :: rest =>
    let calls : ℕ :=
      match lv, lz.value, lz.func with
      | .Percentile _, none, some _ => 1
      | _, _, _ => 0
    (lz.level lv).bind fun q =>
      (q.2.run_levels rest).map fun r => (q.1 :: r.1, r.2.1, calls + r.2.2)

/-- `Options` from main.rs.  The `tone_map`/`color_map` function-pointer
fields would make the structure refer to itself in Lean, so the selected
operators are passed at the call sites of this embedding; the numeric and
level fields are kept. -/
structure Options where
  exposure : ℝ
  hdr_max : ℝ
  saturation : ℝ
  levels_min : Level
  levels_max : Level

noncomputable section

/-- `tonemap_linear`. -/
def tonemap_linear (c_in : Vec3) (_options : Options) : Vec3 := c_in

/-- `tonemap_reinhard_rgb`: the extended Reinhard curve per channel. -/
def tonemap_reinhard_rgb (c_in : Vec3) (options : Options) : Vec3 :=
  let white := options.hdr_max
  let white2 := white * white
  ⟨c_in.x * (1 + c_in.x / white2) / (1 + c_in.x),
    c_in.y * (1 + c_in.y / white2) / (1 + c_in.y),
    c_in.z * (1 + c_in.z / white2) / (1 + c_in.z)⟩

/-- `scale_oklab_desat`: rescale chroma by the lightness compression ratio
raised to `3 / saturation`; identity when the input lightness is zero (the
Rust local `ratio` is `r` here). -/
def scale_oklab_desat (oklab_in : Oklab) (luma_out saturation : ℝ) : Oklab :=
  let l_in := oklab_in.l
  if l_in = 0 then oklab_in
  else
    let l_out := oklab_l_for_luma luma_out
    let r := (l_out / l_in) ^ ((3 : ℝ) / saturation)
    { l := l_out, a := oklab_in.a * r, b := oklab_in.b * r }

/-- `scale_oklab`: linear chroma rescale variant used by the levels stage. -/
def scale_oklab (oklab_in : Oklab) (luma_out : ℝ) : Oklab :=
  if oklab_in.l = 0 then oklab_in
  else
    let gray_l := oklab_l_for_luma luma_out
    let r := gray_l / oklab_in.l
    { l := gray_l, a := oklab_in.a * r, b := oklab_in.b * r }

/-- `tonemap_reinhard_oklab`: extended Reinhard on the oklab-derived luma,
then chroma rescale, then back to linear. -/
def tonemap_reinhard_oklab (c_in : Vec3) (options : Options) : Vec3 :=
  let white := options.hdr_max
  let white2 := white * white
  let oklab_in := scrgb_to_oklab c_in
  let luma_in := luma_oklab oklab_in
  let luma_out := luma_in * (1 + luma_in / white2) / (1 + luma_in)
  let oklab_out := scale_oklab_desat oklab_in luma_out options.saturation
  oklab_to_scrgb oklab_out

/-- `apply_exposure` at f32 (the generic `Mul` is instantiated per use). -/
def apply_exposure (val : ℝ) (stops : ℝ) : ℝ := val * (2 : ℝ) ^ stops

/-- The `hdr_max` computation of `hdrfix` (main.rs 668-679): a scalar level
is in nits, rescaled by `SDR_WHITE` and exposure-adjusted; a percentile
level is looked up in the input histogram with no exposure scaling. -/
def compute_hdr_max (level : Level) (exposure : ℝ) (histogram : Histogram) : ℝ :=
  match level with
  | .Scalar val => apply_exposure ((val : ℚ) / SDR_WHITE) exposure
  | .Percentile val => ((histogram.percentile val : ℚ) : ℝ)

end

/-- The `extension`-based source decode in `hdrfix`: a png decodes into an
HDR8bit buffer, a jxr into HDRFloat32, anything else is InvalidInputFile. -/
def source_format (ext : String) : Option PixelFormat :=
  if ext = "png" then some .HDR8bit
  else if ext = "jxr" then some .HDRFloat32
  else none

/-- The sequence of per-pixel dispatch operations `hdrfix` performs, by
buffer format: the optional pre-gamma pass (read source, write an
HDRFloat32 copy that then acts as the source), the optional input
histogram (read), the tone-map pass (read source, write HDRFloat32), the
optional levels histogram (read HDRFloat32), and the output pass (read
HDRFloat32, write SDR8bit).  The booleans select the data-dependent
branches (pre-gamma ≠ 1.0, percentile hdr-max, a percentile level bound). -/
def hdrfix_dispatch_ops (src_format : PixelFormat)
    (pre_gamma_on hdr_max_percentile levels_percentile : Bool) :
    List (PixelFormat × BufOp) :=
  let eff := if pre_gamma_on then PixelFormat.HDRFloat32 else src_format
  (if pre_gamma_on then [(src_format, BufOp.read), (PixelFormat.HDRFloat32, BufOp.write)]
    else [])
  ++ (if hdr_max_percentile then [(eff, BufOp.read)] else [])
  ++ [(eff, BufOp.read), (PixelFormat.HDRFloat32, BufOp.write)]
  ++ (if levels_percentile then [(PixelFormat.HDRFloat32, BufOp.read)] else [])
  ++ [(PixelFormat.HDRFloat32, BufOp.read), (PixelFormat.SDR8bit, BufOp.write)]

noncomputable section

/-- The gamma segment as the spec's words state it for claim C2:
`1.055 * v ^ (1/2.4) - 0.055` (the standard sRGB encode). -/
def linear_to_srgb_gamma_spec (v : ℝ) : ℝ :=
  1.055 * v ^ ((1 : ℝ) / 2.4) - 0.055

/-- The chroma rescale as claim C7's words state it: the rescale exponent
base is the luminance ratio `luma_out / luma_in` itself (the code uses the
ratio of the corresponding perceptual lightnesses instead). -/
def scale_oklab_desat_spec (oklab_in : Oklab) (luma_in luma_out saturation : ℝ) :
    Oklab :=
  if oklab_in.l = 0 then oklab_in
  else
    let r := (luma_out / luma_in) ^ ((3 : ℝ) / saturation)
    { l := oklab_l_for_luma luma_out, a := oklab_in.a * r, b := oklab_in.b * r }

end

/-! Helper lemmas about `close_enough` and the bisection. -/

theorem close_enough_is_lt {a b : ℝ} (h : EPSILON ≤ b - a) : close_enough a b = .lt := by
  have hε := epsilon_pos
  unfold close_enough
  rw [if_neg, if_pos (by linarith)]
  rw [abs_sub_comm, abs_of_nonneg (by linarith)]
  linarith

theorem close_enough_is_gt {a b : ℝ} (h : EPSILON ≤ a - b) : close_enough a b = .gt := by
  have hε := epsilon_pos
  unfold close_enough
  rw [if_neg, if_neg (by linarith)]
  rw [abs_of_nonneg (by linarith)]
  linarith

/-- One unfolding of `binary_search` in the bracket-collapse case. -/
theorem bs_stop {I O : Type} (input : I) (lo hi : ℝ) (func : I → ℝ → O)
    (cmp : O → Ordering) (h : close_enough lo hi = .eq) :
    binary_search input lo hi func cmp = func input ((lo + hi) / 2) := by
  rw [binary_search, dif_pos h]

/-- One unfolding of `binary_search` in the recursive case. -/
theorem bs_step {I O : Type} (input : I) (lo hi : ℝ) (func : I → ℝ → O)
    (cmp : O → Ordering) (h : ¬ close_enough lo hi = .eq) :
    binary_search input lo hi func cmp =
      match cmp (func input ((lo + hi) / 2)) with
      | .lt => binary_search input ((lo + hi) / 2) hi func cmp
      | .gt => binary_search input lo ((lo + hi) / 2) func cmp
      | .eq => func input ((lo + hi) / 2) := by
  rw [binary_search, dif_neg h]

theorem bsc_stop {I O : Type} (input : I) (lo hi : ℝ) (func : I → ℝ → O)
    (cmp : O → Ordering) (h : close_enough lo hi = .eq) :
    binary_search_calls input lo hi func cmp = 1 := by
  rw [binary_search_calls, dif_pos h]

theorem bsc_step {I O : Type} (input : I) (lo hi : ℝ) (func : I → ℝ → O)
    (cmp : O → Ordering) (h : ¬ close_enough lo hi = .eq) :
    binary_search_calls input lo hi func cmp =
      match cmp (func input ((lo + hi) / 2)) with
      | .lt => 1 + binary_search_calls input ((lo + hi) / 2) hi func cmp
      | .gt => 1 + binary_search_calls input lo ((lo + hi) / 2) func cmp
      | .eq => 1 := by
  rw [binary_search_calls, dif_neg h]

/-- Each recursive call halves the bracket, so a bracket smaller than
`EPSILON * 2 ^ k` costs at most `k + 1` evaluations. -/
theorem binary_search_calls_bound {I O : Type} :
    ∀ (k : ℕ) (input : I) (lo hi : ℝ) (func : I → ℝ → O) (cmp : O → Ordering),
      |lo - hi| < EPSILON * 2 ^ k →
      binary_search_calls input lo hi func cmp ≤ k + 1 := by
  intro k
  induction k with
  | zero =>
    intro input lo hi func cmp h
    rw [bsc_stop _ _ _ _ _ ((close_enough_eq_iff _ _).mpr (by simpa using h))]
  | succ n ih =>
    intro input lo hi func cmp h
    by_cases hce : close_enough lo hi = .eq
    · rw [bsc_stop _ _ _ _ _ hce]; omega
    · rw [bsc_step _ _ _ _ _ hce]
      have habs : |(lo - hi) / 2| = |lo - hi| / 2 := by
        rw [abs_div]; norm_num
      have hpow : EPSILON * 2 ^ (n + 1) = EPSILON * 2 ^ n * 2 := by ring
      have h1 : |(lo + hi) / 2 - hi| < EPSILON * 2 ^ n := by
        rw [show (lo + hi) / 2 - hi = (lo - hi) / 2 by ring, habs]
        rw [hpow] at h; linarith
      have h2 : |lo - (lo + hi) / 2| < EPSILON * 2 ^ n := by
        rw [show lo - (lo + hi) / 2 = (lo - hi) / 2 by ring, habs]
        rw [hpow] at h; linarith
      cases hcm : cmp (func input ((lo + hi) / 2)) with
      | lt =>
        have hrec := ih input ((lo + hi) / 2) hi func cmp h1
        show 1 + binary_search_calls input ((lo + hi) / 2) hi func cmp ≤ n + 1 + 1
        omega
      | gt =>
        have hrec := ih input lo ((lo + hi) / 2) func cmp h2
        show 1 + binary_search_calls input lo ((lo + hi) / 2) func cmp ≤ n + 1 + 1
        omega
      | eq => show 1 ≤ n + 1 + 1; omega

/-- The value `binary_search` returns is always the evaluation of `func` at
some point of the starting bracket. -/
theorem binary_search_result_mem {I O : Type} :
    ∀ (k : ℕ) (input : I) (lo hi : ℝ) (func : I → ℝ → O) (cmp : O → Ordering),
      (⌊|lo - hi| / EPSILON⌋).toNat ≤ k → lo ≤ hi →
      ∃ s, lo ≤ s ∧ s ≤ hi ∧ binary_search input lo hi func cmp = func input s := by
  intro k
  induction k with
  | zero =>
    intro input lo hi func cmp hk hle
    have heq : close_enough lo hi = .eq := by
      by_contra hne
      have hge : EPSILON ≤ |lo - hi| := by
        by_contra hc
        exact hne ((close_enough_eq_iff lo hi).mpr (by linarith [not_le.mp hc]))
      have hx1 : (1 : ℝ) ≤ |lo - hi| / EPSILON := (one_le_div epsilon_pos).mpr hge
      have hfl : (1 : ℤ) ≤ ⌊|lo - hi| / EPSILON⌋ :=
        Int.le_floor.mpr (by exact_mod_cast hx1)
      omega
    exact ⟨(lo + hi) / 2, by linarith, by linarith, bs_stop _ _ _ _ _ heq⟩
  | succ n ih =>
    intro input lo hi func cmp hk hle
    by_cases heq : close_enough lo hi = .eq
    · exact ⟨(lo + hi) / 2, by linarith, by linarith, bs_stop _ _ _ _ _ heq⟩
    · have hge : EPSILON ≤ |lo - hi| := by
        by_contra hc
        exact heq ((close_enough_eq_iff lo hi).mpr (by linarith [not_le.mp hc]))
      have hdec := bsearch_measure_decr hge
      have hmeas : (⌊(|lo - hi| / 2) / EPSILON⌋).toNat ≤ n := by omega
      have habs1 : |(lo + hi) / 2 - hi| = |lo - hi| / 2 := by
        rw [show (lo + hi) / 2 - hi = (lo - hi) / 2 by ring, abs_div]
        norm_num
      have habs2 : |lo - (lo + hi) / 2| = |lo - hi| / 2 := by
        rw [show lo - (lo + hi) / 2 = (lo - hi) / 2 by ring, abs_div]
        norm_num
      rw [bs_step _ _ _ _ _ heq]
      cases hcm : cmp (func input ((lo + hi) / 2)) with
      | lt =>
        obtain ⟨s, h1, h2, h3⟩ := ih input ((lo + hi) / 2) hi func cmp
          (by rw [habs1]; exact hmeas) (by linarith)
        exact ⟨s, by linarith, h2, h3⟩
      | gt =>
        obtain ⟨s, h1, h2, h3⟩ := ih input lo ((lo + hi) / 2) func cmp
          (by rw [habs2]; exact hmeas) (by linarith)
        exact ⟨s, h1, by linarith, h3⟩
      | eq => exact ⟨(lo + hi) / 2, by linarith, by linarith, rfl⟩

/-- C3: starting from the program's fixed bracket [0, 1], the recursive
bisection terminates: the bracket halves on every recursive call and the
recursion stops when its width drops below EPSILON = 0.001 (or when the
comparator reports equality at the midpoint), so at most 11 midpoint
evaluations (10 recursive calls, about log2(1/0.001) ≈ 10) ever happen,
for every evaluation function and comparator. -/
theorem C3_binary_search_termination :
    (∀ (I O : Type) (input : I) (func : I → ℝ → O) (cmp : O → Ordering),
      binary_search_calls input 0 1 func cmp ≤ 11) ∧
    (∀ (I O : Type) (input : I) (func : I → ℝ → O) (cmp : O → Ordering),
      ∃ s, 0 ≤ s ∧ s ≤ 1 ∧ binary_search input 0 1 func cmp = func input s) ∧
    (∀ lo hi : ℝ, close_enough lo hi = .eq ↔ |lo - hi| < EPSILON) := by
  refine ⟨?_, ?_, close_enough_eq_iff⟩
  · intro I O input func cmp
    have h : |(0 : ℝ) - 1| < EPSILON * 2 ^ 10 := by
      rw [abs_of_nonpos (by norm_num)]
      norm_num [EPSILON]
    exact binary_search_calls_bound 10 input 0 1 func cmp h
  · intro I O input func cmp
    exact binary_search_result_mem (⌊|(0 : ℝ) - 1| / EPSILON⌋).toNat input 0 1
      func cmp le_rfl (by norm_num)

/-- C9: a scalar hdr-max (in nits) becomes the white point
`(nits / 80) * 2 ^ exposure` — the exposure adjustment applies to the white
point too — while a percentile hdr-max is read off the input histogram with
no exposure scaling. -/
theorem C9_hdr_max_white_point (v p : ℚ) (e : ℝ) (hist : Histogram) :
    compute_hdr_max (.Scalar v) e hist = ((v : ℝ) / 80) * (2 : ℝ) ^ e ∧
    compute_hdr_max (.Percentile p) e hist = ((hist.percentile p : ℚ) : ℝ) := by
  constructor
  · simp [compute_hdr_max, apply_exposure, SDR_WHITE]
  · simp [compute_hdr_max]

/-! C10: the partial dispatch table and the pipeline's usage of it. -/

theorem format_read_total (fmt : PixelFormat) (hf : fmt ≠ .SDR8bit)
    (dec : List ℕ → ℝ) (data : List ℕ) : (format_read dec fmt data).isSome := by
  cases fmt with
  | SDR8bit => exact absurd rfl hf
  | HDR8bit => rfl
  | HDRFloat32 => rfl

theorem format_write_total (fmt : PixelFormat) (hf : fmt ≠ .HDR8bit)
    (enc : ℝ → List ℕ) (data : List ℕ) (rgb : Vec3) :
    (format_write enc fmt data rgb).isSome := by
  cases fmt with
  | SDR8bit => rfl
  | HDR8bit => exact absurd rfl hf
  | HDRFloat32 => rfl

theorem hdrfix_ops_usage (fmt : PixelFormat) (hf : fmt ≠ .SDR8bit)
    (pg hm lp : Bool) :
    ∀ p ∈ hdrfix_dispatch_ops fmt pg hm lp,
      (p.2 = .read → p.1 ≠ .SDR8bit) ∧ (p.2 = .write → p.1 ≠ .HDR8bit) := by
  cases fmt
  · exact absurd rfl hf
  · cases pg <;> cases hm <;> cases lp <;> decide
  · cases pg <;> cases hm <;> cases lp <;> decide

/-- C10: the per-encoding dispatch table is partial — reading an SDR8bit
pixel or writing an HDR8bit pixel panics unconditionally — but in the
operation sequence `hdrfix` performs (for either admissible input format
and all branch choices), SDR8bit buffers are only written and HDR8bit
buffers only read, so every dispatch entry the pipeline invokes is total. -/
theorem C10_dispatch_table_usage :
    (∀ data, read_srgb_rgb24 data = none) ∧
    (∀ data rgb, write_rec2100_rgb24 data rgb = none) ∧
    (∀ (ext : String) (fmt : PixelFormat) (pg hm lp : Bool)
        (p : PixelFormat × BufOp),
      source_format ext = some fmt → p ∈ hdrfix_dispatch_ops fmt pg hm lp →
      (p.2 = .read → p.1 ≠ .SDR8bit ∧
        ∀ (dec : List ℕ → ℝ) (data : List ℕ), (format_read dec p.1 data).isSome) ∧
      (p.2 = .write → p.1 ≠ .HDR8bit ∧
        ∀ (enc : ℝ → List ℕ) (data : List ℕ) (rgb : Vec3),
          (format_write enc p.1 data rgb).isSome)) := by
  refine ⟨fun _ => rfl, fun _ _ => rfl, ?_⟩
  intro ext fmt pg hm lp p hsf hmem
  have hf : fmt ≠ .SDR8bit := by
    unfold source_format at hsf
    split_ifs at hsf <;> simp_all <;> subst hsf <;> simp
  have husage := hdrfix_ops_usage fmt hf pg hm lp p hmem
  exact ⟨fun hr => ⟨husage.1 hr, format_read_total p.1 (husage.1 hr)⟩,
    fun hw => ⟨husage.2 hw, format_write_total p.1 (husage.2 hw)⟩⟩

/-- C10 witness: the HDR8bit read the pipeline performs on a png source is
in the operation list and its dispatch entry is total. -/
theorem C10_dispatch_table_usage_witness :
    source_format "png" = some .HDR8bit ∧
    ((PixelFormat.HDR8bit, BufOp.read) ∈
      hdrfix_dispatch_ops .HDR8bit false false false) ∧
    ((PixelFormat.HDR8bit, BufOp.read).2 = .read →
      (PixelFormat.HDR8bit, BufOp.read).1 ≠ .SDR8bit ∧
      ∀ (dec : List ℕ → ℝ) (data : List ℕ),
        (format_read dec (PixelFormat.HDR8bit, BufOp.read).1 data).isSome) := by
  refine ⟨rfl, by decide, ?_⟩
  exact (C10_dispatch_table_usage.2.2 "png" .HDR8bit false false false
    (.HDR8bit, .read) rfl (by decide)).1

/-- C8: a level string parses to the percentile variant exactly when it ends
in '%' (its numeric front part giving the value), to the scalar variant
exactly when it does not end in '%' and parses as a number; "50%" gives
Percentile 50 and "0.25" gives Scalar 0.25; a non-numeric numeric part gives
the numeric-parse error. -/
theorem C8_level_with_str :
    Level.with_str "50%".toList = .ok (.Percentile 50) ∧
    Level.with_str "0.25".toList = .ok (.Scalar (1 / 4)) ∧
    (∀ (s : List Char) (q : ℚ),
      Level.with_str s = .ok (.Percentile q) ↔
        (['%'].isSuffixOf s ∧ parse_float (s.take (s.length - 1)) = some q)) ∧
    (∀ (s : List Char) (q : ℚ),
      Level.with_str s = .ok (.Scalar q) ↔
        (¬ ['%'].isSuffixOf s ∧ parse_float s = some q)) ∧
    (∀ s : List Char,
      Level.with_str s = .error .ParseFloatError ↔
        parse_float (if ['%'].isSuffixOf s then s.take (s.length - 1) else s)
          = none) := by
  refine ⟨by rfl, ?_, ?_, ?_, ?_⟩
  · have h1 : Level.with_str "0.25".toList =
        .ok (.Scalar (((0 : ℕ) : ℚ) + ((25 : ℕ) : ℚ) / 10 ^ 2)) := rfl
    rw [h1]
    norm_num
  · intro s q
    unfold Level.with_str strip_suffix
    by_cases hs : (['%'] : List Char).isSuffixOf s
    · rw [if_pos hs]
      cases hp : parse_float (s.take (s.length - 1)) <;> simp_all
    · rw [if_neg hs]
      cases hp : parse_float s <;> simp_all
  · intro s q
    unfold Level.with_str strip_suffix
    by_cases hs : (['%'] : List Char).isSuffixOf s
    · rw [if_pos hs]
      cases hp : parse_float (s.take (s.length - 1)) <;> simp_all
    · rw [if_neg hs]
      cases hp : parse_float s <;> simp_all
  · intro s
    unfold Level.with_str strip_suffix
    by_cases hs : (['%'] : List Char).isSuffixOf s
    · rw [if_pos hs]
      cases hp : parse_float (s.take (s.length - 1)) <;> simp_all
    · rw [if_neg hs]
      cases hp : parse_float s <;> simp_all

/-- C4: on a nonempty luma list and a percentile argument in [0, 100], the
percentile query indexes the ascending sorted sequence at
`⌊(n - 1) * p / 100⌋` (in bounds), the 0/50/100 percentiles are monotone,
and every percentile is one of the buffer's actual luma values. -/
theorem C4_histogram_percentile (lumas : List ℚ) (p : ℚ)
    (hne : lumas ≠ []) (hp0 : 0 ≤ p) (hp100 : p ≤ 100) :
    ((⌊((lumas.length - 1 : ℕ) : ℚ) * p / 100⌋).toNat <
        (Histogram.new lumas).luma_vals.length ∧
      (Histogram.new lumas).percentile p =
        (Histogram.new lumas).luma_vals.getD
          (⌊((lumas.length - 1 : ℕ) : ℚ) * p / 100⌋).toNat 0) ∧
    ((Histogram.new lumas).percentile 0 ≤ (Histogram.new lumas).percentile 50 ∧
      (Histogram.new lumas).percentile 50 ≤ (Histogram.new lumas).percentile 100) ∧
    (Histogram.new lumas).percentile p ∈ lumas := by
  have hperm := List.perm_insertionSort (fun a b : ℚ => a ≤ b) lumas
  have hsorted := List.sorted_insertionSort (fun a b : ℚ => a ≤ b) lumas
  set l := lumas.insertionSort (fun a b : ℚ => a ≤ b) with hldef
  have hlen : l.length = lumas.length := hperm.length_eq
  have hpos : 0 < lumas.length := List.length_pos.mpr hne
  have hvals : (Histogram.new lumas).luma_vals = l := rfl
  -- the index bound, for any argument in [0, 100]
  have hidx : ∀ q : ℚ, 0 ≤ q → q ≤ 100 →
      (⌊((lumas.length - 1 : ℕ) : ℚ) * q / 100⌋).toNat ≤ lumas.length - 1 := by
    intro q h0 h100
    have hnn : (0 : ℚ) ≤ ((lumas.length - 1 : ℕ) : ℚ) := Nat.cast_nonneg _
    have hle : ((lumas.length - 1 : ℕ) : ℚ) * q / 100 ≤
        ((lumas.length - 1 : ℕ) : ℚ) := by
      rw [div_le_iff (by norm_num)]
      nlinarith
    have hfl : ⌊((lumas.length - 1 : ℕ) : ℚ) * q / 100⌋ ≤ (lumas.length - 1 : ℕ) := by
      calc ⌊((lumas.length - 1 : ℕ) : ℚ) * q / 100⌋
          ≤ ⌊((lumas.length - 1 : ℕ) : ℚ)⌋ := Int.floor_le_floor hle
        _ = (lumas.length - 1 : ℕ) := Int.floor_natCast _
    omega
  have hlt : ∀ q : ℚ, 0 ≤ q → q ≤ 100 →
      (⌊((lumas.length - 1 : ℕ) : ℚ) * q / 100⌋).toNat < l.length := by
    intro q h0 h100
    have := hidx q h0 h100
    omega
  -- the percentile is the getD at that index, in bounds
  have hpercq : ∀ q : ℚ, (Histogram.new lumas).percentile q =
      l.getD (⌊((l.length - 1 : ℕ) : ℚ) * q / 100⌋).toNat 0 := by
    intro q
    rfl
  have hsame : ∀ q : ℚ, (Histogram.new lumas).percentile q =
      l.getD (⌊((lumas.length - 1 : ℕ) : ℚ) * q / 100⌋).toNat 0 := by
    intro q
    rw [hpercq q, hlen]
  refine ⟨⟨by rw [hvals]; exact hlt p hp0 hp100, hsame p⟩, ?_, ?_⟩
  · -- monotone 0 ≤ 50 ≤ 100 percentiles
    have h0 : (⌊((lumas.length - 1 : ℕ) : ℚ) * (0 : ℚ) / 100⌋).toNat = 0 := by
      norm_num
    have h100i : (⌊((lumas.length - 1 : ℕ) : ℚ) * (100 : ℚ) / 100⌋).toNat =
        lumas.length - 1 := by
      rw [mul_div_assoc, div_self (by norm_num : (100 : ℚ) ≠ 0), mul_one,
        Int.floor_natCast]
      simp
    have hmono : ∀ i j : ℕ, i ≤ j → (hj : j < l.length) →
        l.getD i 0 ≤ l.getD j 0 := by
      intro i j hij hj
      have hi : i < l.length := lt_of_le_of_lt hij hj
      rw [List.getD_eq_getElem?_getD, List.getElem?_eq_getElem hi,
        List.getD_eq_getElem?_getD, List.getElem?_eq_getElem hj]
      exact List.Sorted.rel_get_of_le hsorted (by exact hij)
    constructor
    · rw [hsame 0, hsame 50]
      apply hmono
      · rw [h0]; omega
      · exact hlt 50 (by norm_num) (by norm_num)
    · rw [hsame 50, hsame 100]
      apply hmono
      · rw [h100i]
        exact hidx 50 (by norm_num) (by norm_num)
      · exact hlt 100 (by norm_num) (by norm_num)
  · -- membership in the original luma values
    rw [hsame p]
    have hl := hlt p hp0 hp100
    rw [List.getD_eq_getElem?_getD, List.getElem?_eq_getElem hl]
    exact hperm.mem_iff.mp (List.getElem_mem hl)

/-- C4 witness: a concrete three-element histogram at the 50th percentile. -/
theorem C4_histogram_percentile_witness :
    ([2, 1, 3] : List ℚ) ≠ [] ∧ (0 : ℚ) ≤ 50 ∧ (50 : ℚ) ≤ 100 ∧
    (((⌊(((([2, 1, 3] : List ℚ).length - 1 : ℕ)) : ℚ) * 50 / 100⌋).toNat <
        (Histogram.new [2, 1, 3]).luma_vals.length ∧
      (Histogram.new [2, 1, 3]).percentile 50 =
        (Histogram.new [2, 1, 3]).luma_vals.getD
          (⌊((([2, 1, 3] : List ℚ).length - 1 : ℕ) : ℚ) * 50 / 100⌋).toNat 0) ∧
    ((Histogram.new [2, 1, 3]).percentile 0 ≤ (Histogram.new [2, 1, 3]).percentile 50 ∧
      (Histogram.new [2, 1, 3]).percentile 50 ≤ (Histogram.new [2, 1, 3]).percentile 100) ∧
    (Histogram.new [2, 1, 3]).percentile 50 ∈ ([2, 1, 3] : List ℚ)) :=
  ⟨by decide, by decide, by decide,
    C4_histogram_percentile [2, 1, 3] 50 (by decide) (by decide) (by decide)⟩

/-! C5: the lazy histogram cell builds at most once. -/

theorem lazy_run_built (h₀ : Histogram) (levels : List Level) :
    ∃ out, (LazyH.mk (some h₀) none).run_levels levels =
      some (out, LazyH.mk (some h₀) none, 0) := by
  induction levels with
  | nil => exact ⟨[], rfl⟩
  | cons lv rest ih =>
    obtain ⟨out, hout⟩ := ih
    cases lv with
    | Scalar v =>
      exact ⟨v :: out, by simp [LazyH.run_levels, LazyH.level, hout]⟩
    | Percentile v =>
      exact ⟨h₀.percentile v :: out,
        by simp [LazyH.run_levels, LazyH.level, LazyH.force, hout]⟩

/-- C5: across any sequence of level queries starting from a fresh cell, the
wrapped construction function runs exactly once if any queried level is a
percentile and never otherwise: scalar queries answer without forcing (the
cell stays untouched), the first percentile query builds the histogram, and
later queries reuse the memoized value.  No query ever hits the take/unwrap
panic (`run_levels` returns `some`). -/
theorem C5_lazy_histogram_once (f : Unit → Histogram) (levels : List Level) :
    ∃ out, (LazyH.new f).run_levels levels =
      some (out,
        (if levels.any Level.is_percentile
          then LazyH.mk (some (f ())) none else LazyH.new f),
        (if levels.any Level.is_percentile then 1 else 0)) := by
  induction levels with
  | nil => exact ⟨[], by simp [LazyH.run_levels]⟩
  | cons lv rest ih =>
    cases lv with
    | Scalar v =>
      obtain ⟨out, hout⟩ := ih
      refine ⟨v :: out, ?_⟩
      have hnew : (LazyH.mk none (some f)).run_levels rest =
          some (out,
            (if rest.any Level.is_percentile
              then LazyH.mk (some (f ())) none else LazyH.new f),
            (if rest.any Level.is_percentile then 1 else 0)) := hout
      simp [LazyH.run_levels, LazyH.level, LazyH.new, hnew, Level.is_percentile]
    | Percentile v =>
      obtain ⟨out, hout⟩ := lazy_run_built (f ()) rest
      refine ⟨(f ()).percentile v :: out, ?_⟩
      simp [LazyH.run_levels, LazyH.level, LazyH.force, LazyH.new, hout,
        Level.is_percentile]

/-! C6: fill with a mismatched source length. -/

theorem toChunksGo_congr {α : Type} (n : ℕ) (hn : 0 < n) :
    ∀ (f f' : ℕ) (l : List α), l.length ≤ f → l.length ≤ f' →
      toChunksGo n f l = toChunksGo n f' l := by
  intro f
  induction f with
  | zero =>
    intro f' l hf hf'
    have hl : l = [] := List.eq_nil_of_length_eq_zero (Nat.le_zero.mp hf)
    subst hl
    cases f' <;> rfl
  | succ m ih =>
    intro f' l hf hf'
    cases l with
    | nil => cases f' <;> rfl
    | cons x xs =>
      cases f' with
      | zero => simp at hf'
      | succ m' =>
        show (x :: xs).take n :: toChunksGo n m ((x :: xs).drop n)
            = (x :: xs).take n :: toChunksGo n m' ((x :: xs).drop n)
        have hxl : xs.length + 1 ≤ m + 1 := by simpa using hf
        have hxl' : xs.length + 1 ≤ m' + 1 := by simpa using hf'
        have hd : ((x :: xs).drop n).length ≤ m := by
          rw [List.length_drop]; simp; omega
        have hd' : ((x :: xs).drop n).length ≤ m' := by
          rw [List.length_drop]; simp; omega
        rw [ih _ _ hd hd']

theorem toChunks_nil {α : Type} (n : ℕ) : toChunks n ([] : List α) = [] := rfl

theorem toChunks_cons {α : Type} {n : ℕ} (hn : 0 < n) (x : α) (xs : List α) :
    toChunks n (x :: xs) = (x :: xs).take n :: toChunks n ((x :: xs).drop n) := by
  show (x :: xs).take n :: toChunksGo n xs.length ((x :: xs).drop n)
      = (x :: xs).take n :: toChunksGo n ((x :: xs).drop n).length ((x :: xs).drop n)
  have hd : ((x :: xs).drop n).length ≤ xs.length := by
    rw [List.length_drop]; simp; omega
  rw [toChunksGo_congr n hn _ _ _ hd le_rfl]

theorem flatten_toChunksGo {α : Type} {n : ℕ} (hn : 0 < n) :
    ∀ (f : ℕ) (l : List α), l.length ≤ f → (toChunksGo n f l).flatten = l := by
  intro f
  induction f with
  | zero =>
    intro l h
    have hl : l = [] := List.eq_nil_of_length_eq_zero (Nat.le_zero.mp h)
    subst hl; rfl
  | succ m ih =>
    intro l h
    cases l with
    | nil => rfl
    | cons x xs =>
      show ((x :: xs).take n :: toChunksGo n m ((x :: xs).drop n)).flatten = x :: xs
      rw [List.flatten_cons, ih _ (by rw [List.length_drop]; simp at h ⊢; omega)]
      exact List.take_append_drop n (x :: xs)

theorem flatten_toChunks {α : Type} {n : ℕ} (hn : 0 < n) (l : List α) :
    (toChunks n l).flatten = l :=
  flatten_toChunksGo hn l.length l le_rfl

theorem toChunks_drop_flatten {α : Type} {n : ℕ} (hn : 0 < n) :
    ∀ (k : ℕ) (l : List α), ((toChunks n l).drop k).flatten = l.drop (k * n) := by
  intro k
  induction k with
  | zero => intro l; simpa using flatten_toChunks hn l
  | succ m ih =>
    intro l
    cases l with
    | nil => rw [toChunks_nil]; simp
    | cons x xs =>
      rw [toChunks_cons hn]
      show ((toChunks n ((x :: xs).drop n)).drop m).flatten
          = (x :: xs).drop ((m + 1) * n)
      rw [ih ((x :: xs).drop n), List.drop_drop]
      congr 1
      ring

theorem write_all_length (w : List ℕ → Vec3 → Option (List ℕ)) :
    ∀ (ps : List (List ℕ × Vec3)) (out : List (List ℕ)),
      write_all w ps = some out → out.length = ps.length := by
  intro ps
  induction ps with
  | nil =>
    intro out h
    cases h
    rfl
  | cons p rest ih =>
    intro out h
    unfold write_all at h
    cases hw : w p.1 p.2 with
    | none => rw [hw] at h; simp at h
    | some c =>
      rw [hw] at h
      cases hr : write_all w rest with
      | none => rw [hr] at h; simp at h
      | some cs =>
        rw [hr] at h
        simp at h
        subst h
        simp [ih cs hr]

theorem flatten_length_const {α : Type} {n : ℕ} :
    ∀ L : List (List α), (∀ c ∈ L, c.length = n) →
      L.flatten.length = L.length * n := by
  intro L
  induction L with
  | nil => simp
  | cons c R ih =>
    intro h
    rw [List.flatten_cons, List.length_append, h c (List.mem_cons_self c R),
      ih (fun d hd => h d (List.mem_cons_of_mem c hd))]
    simp [Nat.succ_mul, Nat.add_comm]

/-- The number of pixel chunks of a store of exactly `k * n` bytes is `k`. -/
theorem toChunks_length_of_mul {α : Type} {n : ℕ} (hn : 0 < n) :
    ∀ (k : ℕ) (l : List α), l.length = k * n → (toChunks n l).length = k := by
  intro k
  induction k with
  | zero =>
    intro l hl
    have hnil : l = [] := List.eq_nil_of_length_eq_zero (by omega)
    subst hnil
    rfl
  | succ m ih =>
    intro l hl
    cases l with
    | nil =>
      exfalso
      have hpos : 0 < (m + 1) * n := Nat.mul_pos (Nat.succ_pos m) hn
      simp at hl
      omega
    | cons x xs =>
      rw [toChunks_cons hn, List.length_cons,
        ih ((x :: xs).drop n) (by rw [List.length_drop, hl, Nat.succ_mul]; omega)]

/-- C6 (amended): a source whose length differs from the buffer's pixel
count — shorter or longer — is silently tolerated, not fatal: rayon's
`zip` truncates to the shorter side, so `fill` writes exactly
`min(pixel count, source length)` pixels (given the per-pixel writes
succeed and write whole pixels), completes normally, and leaves every byte
beyond the written prefix unchanged. -/
theorem C6_fill_mismatch_truncates (b : PixelBuffer) (src : List Vec3)
    (written : List (List ℕ))
    (hbpp : 0 < b.bytes_per_pixel)
    (hdata : b.data.length = b.width * b.height * b.bytes_per_pixel)
    (hw : write_all b.write_rgb_func
      ((toChunks b.bytes_per_pixel b.data).zip src) = some written)
    (hclen : ∀ c ∈ written, c.length = b.bytes_per_pixel) :
    ∃ b', b.fill src = some b' ∧
      written.length = min (b.width * b.height) src.length ∧
      b'.data = (written ++ (toChunks b.bytes_per_pixel b.data).drop
        (min (b.width * b.height) src.length)).flatten ∧
      b'.data.drop (min (b.width * b.height) src.length * b.bytes_per_pixel) =
        b.data.drop (min (b.width * b.height) src.length * b.bytes_per_pixel) := by
  have hch : (toChunks b.bytes_per_pixel b.data).length = b.width * b.height :=
    toChunks_length_of_mul hbpp (b.width * b.height) b.data hdata
  have hpairs : ((toChunks b.bytes_per_pixel b.data).zip src).length
      = min (b.width * b.height) src.length := by
    rw [List.length_zip, hch]
  have hwl : written.length = min (b.width * b.height) src.length := by
    rw [write_all_length b.write_rgb_func _ written hw, hpairs]
  refine ⟨{ b with data := (written ++ (toChunks b.bytes_per_pixel b.data).drop
      (min (b.width * b.height) src.length)).flatten }, ?_, hwl, rfl, ?_⟩
  · show (write_all b.write_rgb_func
        ((toChunks b.bytes_per_pixel b.data).zip src)).map _ = _
    rw [hw, hpairs]
    rfl
  · show ((written ++ (toChunks b.bytes_per_pixel b.data).drop
        (min (b.width * b.height) src.length)).flatten).drop
        (min (b.width * b.height) src.length * b.bytes_per_pixel)
      = b.data.drop (min (b.width * b.height) src.length * b.bytes_per_pixel)
    rw [List.flatten_append]
    have hfl : written.flatten.length
        = min (b.width * b.height) src.length * b.bytes_per_pixel := by
      rw [flatten_length_const written hclen, hwl]
    rw [show min (b.width * b.height) src.length * b.bytes_per_pixel
        = written.flatten.length from hfl.symm, List.drop_left]
    rw [toChunks_drop_flatten hbpp, hfl]

/-- C6 witness: a 2-pixel buffer filled from a 1-element source writes one
pixel and keeps the second pixel's bytes; filled from a 3-element source it
writes both pixels (the extra source element is dropped) and completes
normally either way. -/
theorem C6_fill_mismatch_truncates_witness :
    ((0 < (3 : ℕ) ∧
      ([1, 2, 3, 4, 5, 6] : List ℕ).length = 2 * 1 * 3 ∧
      write_all (fun _ _ => some [7, 7, 7])
        ((toChunks 3 ([1, 2, 3, 4, 5, 6] : List ℕ)).zip [(⟨0, 0, 0⟩ : Vec3)])
        = some [[7, 7, 7]] ∧
      (∀ c ∈ ([[7, 7, 7]] : List (List ℕ)), c.length = 3)) ∧
    ∃ b', (PixelBuffer.mk 2 1 3 [1, 2, 3, 4, 5, 6] (fun _ => none)
        (fun _ _ => some [7, 7, 7])).fill [⟨0, 0, 0⟩] = some b' ∧
      ([[7, 7, 7]] : List (List ℕ)).length =
        min (2 * 1) [(⟨0, 0, 0⟩ : Vec3)].length ∧
      b'.data = (([[7, 7, 7]] : List (List ℕ)) ++
        (toChunks 3 ([1, 2, 3, 4, 5, 6] : List ℕ)).drop
          (min (2 * 1) [(⟨0, 0, 0⟩ : Vec3)].length)).flatten ∧
      b'.data.drop (min (2 * 1) [(⟨0, 0, 0⟩ : Vec3)].length * 3) =
        ([1, 2, 3, 4, 5, 6] : List ℕ).drop
          (min (2 * 1) [(⟨0, 0, 0⟩ : Vec3)].length * 3)) ∧
    ((write_all (fun _ _ => some [7, 7, 7])
        ((toChunks 3 ([1, 2, 3, 4, 5, 6] : List ℕ)).zip
          [(⟨0, 0, 0⟩ : Vec3), ⟨0, 0, 0⟩, ⟨0, 0, 0⟩])
        = some [[7, 7, 7], [7, 7, 7]] ∧
      (∀ c ∈ ([[7, 7, 7], [7, 7, 7]] : List (List ℕ)), c.length = 3)) ∧
    ∃ b', (PixelBuffer.mk 2 1 3 [1, 2, 3, 4, 5, 6] (fun _ => none)
        (fun _ _ => some [7, 7, 7])).fill
          [⟨0, 0, 0⟩, ⟨0, 0, 0⟩, ⟨0, 0, 0⟩] = some b' ∧
      ([[7, 7, 7], [7, 7, 7]] : List (List ℕ)).length =
        min (2 * 1) [(⟨0, 0, 0⟩ : Vec3), ⟨0, 0, 0⟩, ⟨0, 0, 0⟩].length ∧
      b'.data = (([[7, 7, 7], [7, 7, 7]] : List (List ℕ)) ++
        (toChunks 3 ([1, 2, 3, 4, 5, 6] : List ℕ)).drop
          (min (2 * 1) [(⟨0, 0, 0⟩ : Vec3), ⟨0, 0, 0⟩, ⟨0, 0, 0⟩].length)).flatten ∧
      b'.data.drop
          (min (2 * 1) [(⟨0, 0, 0⟩ : Vec3), ⟨0, 0, 0⟩, ⟨0, 0, 0⟩].length * 3) =
        ([1, 2, 3, 4, 5, 6] : List ℕ).drop
          (min (2 * 1) [(⟨0, 0, 0⟩ : Vec3), ⟨0, 0, 0⟩, ⟨0, 0, 0⟩].length * 3)) :=
  ⟨⟨⟨by decide, by decide, by rfl, by decide⟩,
    C6_fill_mismatch_truncates
      (PixelBuffer.mk 2 1 3 [1, 2, 3, 4, 5, 6] (fun _ => none)
        (fun _ _ => some [7, 7, 7]))
      [⟨0, 0, 0⟩] [[7, 7, 7]] (by decide) (by decide) (by rfl) (by decide)⟩,
    ⟨⟨by rfl, by decide⟩,
    C6_fill_mismatch_truncates
      (PixelBuffer.mk 2 1 3 [1, 2, 3, 4, 5, 6] (fun _ => none)
        (fun _ _ => some [7, 7, 7]))
      [⟨0, 0, 0⟩, ⟨0, 0, 0⟩, ⟨0, 0, 0⟩] [[7, 7, 7], [7, 7, 7]]
      (by decide) (by decide) (by rfl) (by decide)⟩⟩

theorem linear_to_srgb_c_small : linear_to_srgb_c (1 / 500 : ℝ) = 1292 / 50000 := by
  unfold linear_to_srgb_c
  rw [if_pos (by norm_num)]
  norm_num

theorem linear_to_srgb_c_zero : linear_to_srgb_c (0 : ℝ) = 0 := by
  unfold linear_to_srgb_c
  rw [if_pos (by norm_num)]
  norm_num

theorem clip_small : clip ⟨1292 / 50000, 0, 0⟩ = ⟨1292 / 50000, 0, 0⟩ := by
  unfold clip
  rw [max_eq_left (by norm_num : (0 : ℝ) ≤ 1292 / 50000),
    min_eq_left (by norm_num : (1292 / 50000 : ℝ) ≤ 1),
    max_self, min_eq_left (by norm_num : (0 : ℝ) ≤ 1)]

theorem write_srgb_small :
    write_srgb_rgb24 [0, 0, 0] ⟨1 / 500, 0, 0⟩ = [6, 0, 0] := by
  have hg : linear_to_srgb ⟨1 / 500, 0, 0⟩ = ⟨1292 / 50000, 0, 0⟩ := by
    show clip ⟨linear_to_srgb_c (1 / 500), linear_to_srgb_c 0, linear_to_srgb_c 0⟩ = _
    rw [linear_to_srgb_c_small, linear_to_srgb_c_zero, clip_small]
  show [byte_of_real ((clip (linear_to_srgb ⟨1 / 500, 0, 0⟩)).x * 255),
      byte_of_real ((clip (linear_to_srgb ⟨1 / 500, 0, 0⟩)).y * 255),
      byte_of_real ((clip (linear_to_srgb ⟨1 / 500, 0, 0⟩)).z * 255)] = [6, 0, 0]
  rw [hg, clip_small]
  unfold byte_of_real
  show [(⌊(1292 / 50000 : ℝ) * 255⌋).toNat, (⌊(0 : ℝ) * 255⌋).toNat,
      (⌊(0 : ℝ) * 255⌋).toNat] = [6, 0, 0]
  rw [show ((1292 / 50000 : ℝ) * 255) = 3294.6 / 500 by norm_num,
    show ((0 : ℝ) * 255) = 0 by norm_num]
  rw [show ⌊(3294.6 / 500 : ℝ)⌋ = 6 from
    Int.floor_eq_iff.mpr ⟨by norm_num, by norm_num⟩]
  rw [show ⌊(0 : ℝ)⌋ = 0 from Int.floor_zero]
  rfl

/-- C6 counterexample: `fill` on an SDR8bit buffer of 2 pixels with a
1-element source does not abort; it writes the single zipped pixel
(bytes 6,0,0 for the in-range linear value 1/500) and silently leaves the
other pixel's zero bytes in place. -/
theorem C6_fill_mismatch_counterexample :
    ([(⟨1 / 500, 0, 0⟩ : Vec3)].length ≠
      (PixelBuffer.new (fun _ => 0) (fun _ => []) 2 1 .SDR8bit).width *
        (PixelBuffer.new (fun _ => 0) (fun _ => []) 2 1 .SDR8bit).height) ∧
    Option.map PixelBuffer.data
        ((PixelBuffer.new (fun _ => 0) (fun _ => []) 2 1 .SDR8bit).fill
          [⟨1 / 500, 0, 0⟩]) =
      some [6, 0, 0, 0, 0, 0] := by
  constructor
  · show (1 : ℕ) ≠ 2 * 1
    decide
  · show Option.map PixelBuffer.data
        ((PixelBuffer.mk 2 1 3 [0, 0, 0, 0, 0, 0] read_srgb_rgb24
          (fun d v => some (write_srgb_rgb24 d v))).fill [⟨1 / 500, 0, 0⟩]) =
      some [6, 0, 0, 0, 0, 0]
    show Option.map PixelBuffer.data
        (Option.map (fun written : List (List ℕ) =>
            PixelBuffer.mk 2 1 3
              ((written ++ (toChunks 3 ([0, 0, 0, 0, 0, 0] : List ℕ)).drop
                ((toChunks 3 ([0, 0, 0, 0, 0, 0] : List ℕ)).zip
                  [(⟨1 / 500, 0, 0⟩ : Vec3)]).length).flatten)
              read_srgb_rgb24 (fun d v => some (write_srgb_rgb24 d v)))
          (write_all (fun d v => some (write_srgb_rgb24 d v))
            ((toChunks 3 ([0, 0, 0, 0, 0, 0] : List ℕ)).zip
              [(⟨1 / 500, 0, 0⟩ : Vec3)]))) =
      some [6, 0, 0, 0, 0, 0]
    rw [show write_all (fun d v => some (write_srgb_rgb24 d v))
        ((toChunks 3 ([0, 0, 0, 0, 0, 0] : List ℕ)).zip [(⟨1 / 500, 0, 0⟩ : Vec3)])
      = some [write_srgb_rgb24 [0, 0, 0] ⟨1 / 500, 0, 0⟩] from rfl]
    rw [write_srgb_small]
    rfl

/-- C2 (code bug): at channel value 1.0 the spec's standard formula
`1.055 * v^(1/2.4) - 0.055` gives exactly 1, hence byte 255, but the code's
`(1.055 * v)^(1/2.4) - 0.055` gives a value strictly below 1, so the
encoded byte is at most 254: pure white cannot reach (255,255,255). -/
theorem C2_linear_to_srgb_code_bug :
    linear_to_srgb_gamma_spec 1 = 1 ∧
    byte_of_real (min (max (linear_to_srgb_gamma_spec 1) 0) 1 * 255) = 255 ∧
    0.945 ≤ linear_to_srgb_c 1 ∧ linear_to_srgb_c 1 < 1 ∧
    write_srgb_rgb24 [0, 0, 0] ⟨1, 1, 1⟩ =
      [byte_of_real (linear_to_srgb_c 1 * 255), byte_of_real (linear_to_srgb_c 1 * 255),
        byte_of_real (linear_to_srgb_c 1 * 255)] ∧
    byte_of_real (linear_to_srgb_c 1 * 255) = 246 := by
  have hone : linear_to_srgb_gamma_spec 1 = 1 := by
    unfold linear_to_srgb_gamma_spec
    rw [Real.one_rpow]
    norm_num
  have hlow : (1 : ℝ) ≤ (1.055 : ℝ) ^ ((1 : ℝ) / 2.4) := by
    calc (1 : ℝ) = (1.055 : ℝ) ^ (0 : ℝ) := by rw [Real.rpow_zero]
      _ ≤ (1.055 : ℝ) ^ ((1 : ℝ) / 2.4) :=
        Real.rpow_le_rpow_of_exponent_le (by norm_num) (by norm_num)
  have hhigh : (1.055 : ℝ) ^ ((1 : ℝ) / 2.4) < 1.055 := by
    calc (1.055 : ℝ) ^ ((1 : ℝ) / 2.4) < (1.055 : ℝ) ^ (1 : ℝ) :=
        Real.rpow_lt_rpow_of_exponent_lt (by norm_num) (by norm_num)
      _ = 1.055 := Real.rpow_one _
  have hc : linear_to_srgb_c 1 = (1.055 : ℝ) ^ ((1 : ℝ) / 2.4) - 0.055 := by
    unfold linear_to_srgb_c
    rw [if_neg (by norm_num)]
    norm_num
  have hcl : 0.945 ≤ linear_to_srgb_c 1 := by rw [hc]; linarith
  have hch : linear_to_srgb_c 1 < 1 := by rw [hc]; linarith
  have hclip : clip ⟨linear_to_srgb_c 1, linear_to_srgb_c 1, linear_to_srgb_c 1⟩
      = ⟨linear_to_srgb_c 1, linear_to_srgb_c 1, linear_to_srgb_c 1⟩ := by
    unfold clip
    rw [max_eq_left (by linarith), min_eq_left (by linarith)]
  refine ⟨hone, ?_, hcl, hch, ?_, ?_⟩
  · rw [hone]
    rw [max_eq_left (by norm_num), min_self]
    unfold byte_of_real
    rw [show ((1 : ℝ) * 255) = ((255 : ℤ) : ℝ) by norm_num, Int.floor_intCast]
    rfl
  · have hg11 : linear_to_srgb ⟨1, 1, 1⟩
        = ⟨linear_to_srgb_c 1, linear_to_srgb_c 1, linear_to_srgb_c 1⟩ := by
      show clip ⟨linear_to_srgb_c 1, linear_to_srgb_c 1, linear_to_srgb_c 1⟩ = _
      exact hclip
    show [byte_of_real ((clip (linear_to_srgb ⟨1, 1, 1⟩)).x * 255),
        byte_of_real ((clip (linear_to_srgb ⟨1, 1, 1⟩)).y * 255),
        byte_of_real ((clip (linear_to_srgb ⟨1, 1, 1⟩)).z * 255)] = _
    rw [hg11, hclip]
  · -- the byte is exactly 246: bound 1.055^(5/12) by rational 12th powers
    have hr12 : ((1.055 : ℝ) ^ ((1 : ℝ) / 2.4)) ^ (12 : ℕ)
        = (1.055 : ℝ) ^ (5 : ℕ) := by
      rw [← Real.rpow_natCast ((1.055 : ℝ) ^ ((1 : ℝ) / 2.4)) 12,
        ← Real.rpow_mul (by norm_num : (0 : ℝ) ≤ 1.055)]
      rw [show ((1 : ℝ) / 2.4) * (12 : ℕ) = ((5 : ℕ) : ℝ) by norm_num]
      rw [Real.rpow_natCast]
    have hrpos : (0 : ℝ) ≤ (1.055 : ℝ) ^ ((1 : ℝ) / 2.4) :=
      Real.rpow_nonneg (by norm_num) _
    have hrlo : (1.0198 : ℝ) ≤ (1.055 : ℝ) ^ ((1 : ℝ) / 2.4) := by
      refine le_of_pow_le_pow_left (by norm_num) hrpos (n := 12) ?_
      rw [hr12]
      norm_num
    have hrhi : (1.055 : ℝ) ^ ((1 : ℝ) / 2.4) ≤ 1.0226 := by
      refine le_of_pow_le_pow_left (by norm_num) (by norm_num) (n := 12) ?_
      rw [hr12]
      norm_num
    unfold byte_of_real
    rw [show ⌊linear_to_srgb_c 1 * 255⌋ = 246 from Int.floor_eq_iff.mpr
      ⟨by rw [hc]; push_cast; linarith, by rw [hc]; push_cast; linarith⟩]
    rfl

/-! Shared cube-root and scaling lemmas for the oklab claims. -/

theorem rcbrt_nonneg_eq (x : ℝ) (hx : 0 ≤ x) : rcbrt x = x ^ ((1 : ℝ) / 3) :=
  if_neg (not_lt.mpr hx)

theorem rcbrt_cube (q : ℝ) (hq : 0 ≤ q) : rcbrt (q ^ 3) = q := by
  rw [rcbrt_nonneg_eq _ (by positivity), ← Real.rpow_natCast q 3,
    ← Real.rpow_mul hq]
  norm_num

theorem rcbrt_mono {a b : ℝ} (ha : 0 ≤ a) (hab : a ≤ b) : rcbrt a ≤ rcbrt b := by
  rw [rcbrt_nonneg_eq a ha, rcbrt_nonneg_eq b (le_trans ha hab)]
  exact Real.rpow_le_rpow ha hab (by norm_num)

theorem rcbrt_mul {a b : ℝ} (ha : 0 ≤ a) (hb : 0 ≤ b) :
    rcbrt (a * b) = rcbrt a * rcbrt b := by
  rw [rcbrt_nonneg_eq _ (mul_nonneg ha hb), rcbrt_nonneg_eq a ha,
    rcbrt_nonneg_eq b hb]
  exact Real.mul_rpow ha hb

theorem rcbrt_one : rcbrt 1 = 1 := by
  rw [rcbrt_nonneg_eq 1 zero_le_one, Real.one_rpow]

/-- Scaling all three oklab coordinates by `s` scales every linear channel
of the reconstruction by `s ^ 3` (the inverse transform is linear forms
followed by cubes followed by a linear map). -/
theorem oklab_to_scrgb_scale (lab : Oklab) (s : ℝ) :
    darken_oklab lab s = Vec3.smul (s ^ 3) (oklab_to_scrgb lab) := by
  simp only [darken_oklab, oklab_to_scrgb, oklab_to_linear_srgb, Vec3.smul,
    Vec3.mk.injEq]
  refine ⟨by ring, by ring, by ring⟩

theorem max_element_smul (k : ℝ) (v : Vec3) (hk : 0 ≤ k) :
    (Vec3.smul k v).max_element = k * v.max_element := by
  show max (k * v.x) (max (k * v.y) (k * v.z)) = k * max v.x (max v.y v.z)
  rw [← (monotone_mul_left_of_nonneg hk).map_max,
    ← (monotone_mul_left_of_nonneg hk).map_max]

/-- C1 (amended): the gamut operators are the identity on in-gamut samples
(max channel ≤ 1.0); on out-of-gamut samples they return the clipped
evaluation of the darken/desaturate function at some bisection scale in
[0, 1] — the bracket collapses below EPSILON, but the returned value's max
channel need not be within EPSILON of 1.0. -/
theorem C1_gamut_ops_amended :
    (∀ c : Vec3, ¬ c.max_element > 1 →
      color_darken_oklab c = c ∧ color_desat_oklab c = c) ∧
    (∀ c : Vec3, c.max_element > 1 →
      (∃ s, 0 ≤ s ∧ s ≤ 1 ∧
        color_darken_oklab c = clip (darken_oklab (scrgb_to_oklab c) s)) ∧
      (∃ s, 0 ≤ s ∧ s ≤ 1 ∧
        color_desat_oklab c = clip (desat_oklab (scrgb_to_oklab c) s))) := by
  constructor
  · intro c hc
    constructor
    · unfold color_darken_oklab
      rw [if_neg hc]
    · unfold color_desat_oklab
      rw [if_neg hc]
  · intro c hc
    constructor
    · obtain ⟨s, h0, h1, he⟩ :=
        binary_search_result_mem (⌊|(0 : ℝ) - 1| / EPSILON⌋).toNat
          (scrgb_to_oklab c) 0 1 darken_oklab gamut_cmp le_rfl (by norm_num)
      refine ⟨s, h0, h1, ?_⟩
      unfold color_darken_oklab
      rw [if_pos hc, he]
    · obtain ⟨s, h0, h1, he⟩ :=
        binary_search_result_mem (⌊|(0 : ℝ) - 1| / EPSILON⌋).toNat
          (scrgb_to_oklab c) 0 1 desat_oklab gamut_cmp le_rfl (by norm_num)
      refine ⟨s, h0, h1, ?_⟩
      unfold color_desat_oklab
      rw [if_pos hc, he]

/-- C1 witness: identity at the in-gamut white (1,1,1); search semantics at
the out-of-gamut sample (2,0,0). -/
theorem C1_gamut_ops_amended_witness :
    (¬ (⟨1, 1, 1⟩ : Vec3).max_element > 1 ∧
      color_darken_oklab ⟨1, 1, 1⟩ = ⟨1, 1, 1⟩ ∧
      color_desat_oklab ⟨1, 1, 1⟩ = ⟨1, 1, 1⟩) ∧
    ((⟨2, 0, 0⟩ : Vec3).max_element > 1 ∧
      (∃ s, 0 ≤ s ∧ s ≤ 1 ∧ color_darken_oklab ⟨2, 0, 0⟩ =
        clip (darken_oklab (scrgb_to_oklab ⟨2, 0, 0⟩) s)) ∧
      (∃ s, 0 ≤ s ∧ s ≤ 1 ∧ color_desat_oklab ⟨2, 0, 0⟩ =
        clip (desat_oklab (scrgb_to_oklab ⟨2, 0, 0⟩) s))) := by
  have h1 : ¬ (⟨1, 1, 1⟩ : Vec3).max_element > 1 := by
    show ¬ max 1 (max 1 1) > 1
    simp
  have h2 : (⟨2, 0, 0⟩ : Vec3).max_element > 1 := by
    show (1 : ℝ) < max 2 (max 0 0)
    exact lt_of_lt_of_le one_lt_two (le_max_left _ _)
  exact ⟨⟨h1, (C1_gamut_ops_amended.1 _ h1).1, (C1_gamut_ops_amended.1 _ h1).2⟩,
    h2, (C1_gamut_ops_amended.2 _ h2).1, (C1_gamut_ops_amended.2 _ h2).2⟩

/-- C7 (amended): the perceptual Reinhard tone-mapper computes
`luma_out = L * (1 + L / white²) / (1 + L)` from the oklab-derived luma `L`
and rescales the chroma by `(l_out / l_in) ^ (3 / saturation)` where `l_in`
is the input's perceptual lightness and `l_out` the lightness of the gray
with luma `luma_out` (not by the luminance ratio itself); when the input
lightness is 0 the perceptual sample passes through unchanged, so the
division by `l_in` is never taken at 0. -/
theorem C7_reinhard_oklab_amended :
    (∀ (c : Vec3) (options : Options),
      tonemap_reinhard_oklab c options =
        oklab_to_scrgb (scale_oklab_desat (scrgb_to_oklab c)
          (luma_oklab (scrgb_to_oklab c) *
            (1 + luma_oklab (scrgb_to_oklab c) /
              (options.hdr_max * options.hdr_max)) /
            (1 + luma_oklab (scrgb_to_oklab c)))
          options.saturation)) ∧
    (∀ (ok : Oklab) (luma_out sat : ℝ), ok.l = 0 →
      scale_oklab_desat ok luma_out sat = ok) ∧
    (∀ (ok : Oklab) (luma_out sat : ℝ), ok.l ≠ 0 →
      scale_oklab_desat ok luma_out sat =
        ⟨oklab_l_for_luma luma_out,
          ok.a * (oklab_l_for_luma luma_out / ok.l) ^ ((3 : ℝ) / sat),
          ok.b * (oklab_l_for_luma luma_out / ok.l) ^ ((3 : ℝ) / sat)⟩) := by
  refine ⟨fun c options => rfl, ?_, ?_⟩
  · intro ok luma_out sat h
    unfold scale_oklab_desat
    rw [if_pos h]
  · intro ok luma_out sat h
    unfold scale_oklab_desat
    rw [if_neg h]

/-- C7 witness: the zero-lightness sample passes through; a nonzero sample
gets the lightness-ratio chroma rescale. -/
theorem C7_reinhard_oklab_amended_witness :
    ((⟨0, 1, 1⟩ : Oklab).l = 0 ∧ scale_oklab_desat ⟨0, 1, 1⟩ 5 2 = ⟨0, 1, 1⟩) ∧
    ((⟨1, 2, 3⟩ : Oklab).l ≠ 0 ∧
      scale_oklab_desat ⟨1, 2, 3⟩ 5 2 =
        ⟨oklab_l_for_luma 5,
          2 * (oklab_l_for_luma 5 / 1) ^ ((3 : ℝ) / 2),
          3 * (oklab_l_for_luma 5 / 1) ^ ((3 : ℝ) / 2)⟩) :=
  ⟨⟨rfl, C7_reinhard_oklab_amended.2.1 ⟨0, 1, 1⟩ 5 2 rfl⟩,
    ⟨one_ne_zero, C7_reinhard_oklab_amended.2.2 ⟨1, 2, 3⟩ 5 2 one_ne_zero⟩⟩


/-- Helper: `scale_oklab_desat` in the zero-lightness case. -/
theorem scale_oklab_desat_of_zero (ok : Oklab) (luma_out sat : ℝ) (h : ok.l = 0) :
    scale_oklab_desat ok luma_out sat = ok := by
  unfold scale_oklab_desat
  rw [if_pos h]

/-- Helper: `scale_oklab_desat` in the nonzero-lightness case. -/
theorem scale_oklab_desat_of_ne (ok : Oklab) (luma_out sat : ℝ) (h : ok.l ≠ 0) :
    scale_oklab_desat ok luma_out sat =
      ⟨oklab_l_for_luma luma_out,
        ok.a * (oklab_l_for_luma luma_out / ok.l) ^ ((3 : ℝ) / sat),
        ok.b * (oklab_l_for_luma luma_out / ok.l) ^ ((3 : ℝ) / sat)⟩ := by
  unfold scale_oklab_desat
  rw [if_neg h]

/-- Helper: the spec-worded chroma rescale in the nonzero case. -/
theorem scale_oklab_desat_spec_of_ne (ok : Oklab) (luma_in luma_out sat : ℝ)
    (h : ok.l ≠ 0) :
    scale_oklab_desat_spec ok luma_in luma_out sat =
      ⟨oklab_l_for_luma luma_out,
        ok.a * (luma_out / luma_in) ^ ((3 : ℝ) / sat),
        ok.b * (luma_out / luma_in) ^ ((3 : ℝ) / sat)⟩ := by
  unfold scale_oklab_desat_spec
  rw [if_neg h]

/-- Concrete tone-map input for the C7 counterexample: its oklab image is
exactly (1.999999987, 0, 373/5·10⁹) (the forward cube roots land on 2). -/
noncomputable def c7vec : Vec3 :=
  ⟨782135346421307712560000000000 / 97766918335001940963517722511, 782135346884133878640000000000 / 97766918335001940963517722511, 782135346624998671520000000000 / 97766918335001940963517722511⟩

/-- Options for the C7 counterexample: saturation 3 and a white point whose
square makes the Reinhard output luma exactly (97/100)³. -/
noncomputable def opts7 : Options :=
  ⟨0, Real.sqrt (63999997504000040559999648480001713659995544484004826809 / 214057013623011911450422191857419000000000000000000000), 3, .Scalar 0, .Scalar 1⟩

/-- C7 counterexample: with white chosen so that `luma_out` is exactly
(97/100)³ = 0.912673 and saturation 3, the chroma factor the code applies,
`(l_out / l_in) ^ (3/3)` ≥ 0.446, differs from the claim's
`(L_out / L_in) ^ (3/3)` ≈ 0.114: the b-chroma of the tone-mapped oklab
sample is not the one the claim's formula predicts. -/
theorem C7_reinhard_chroma_counterexample :
    tonemap_reinhard_oklab c7vec opts7 =
      oklab_to_scrgb (scale_oklab_desat (scrgb_to_oklab c7vec) (912673 / 1000000) 3) ∧
    luma_oklab (scrgb_to_oklab c7vec) = 7999999844000001013999997803 / 1000000000000000000000000000 ∧
    (scale_oklab_desat (scrgb_to_oklab c7vec) (912673 / 1000000) 3).b ≠
      (scale_oklab_desat_spec (scrgb_to_oklab c7vec)
        (luma_oklab (scrgb_to_oklab c7vec)) (912673 / 1000000) 3).b := by
  have hrow1 : (0.4122214708 * (782135346421307712560000000000 / 97766918335001940963517722511) + 0.5363325363 * (782135346884133878640000000000 / 97766918335001940963517722511)
      + 0.0514459929 * (782135346624998671520000000000 / 97766918335001940963517722511) : ℝ) = 2 ^ 3 := by norm_num
  have hrow2 : (0.2119034982 * (782135346421307712560000000000 / 97766918335001940963517722511) + 0.6806995451 * (782135346884133878640000000000 / 97766918335001940963517722511)
      + 0.1073969566 * (782135346624998671520000000000 / 97766918335001940963517722511) : ℝ) = 2 ^ 3 := by norm_num
  have hrow3 : (0.0883024619 * (782135346421307712560000000000 / 97766918335001940963517722511) + 0.2817188376 * (782135346884133878640000000000 / 97766918335001940963517722511)
      + 0.6299787005 * (782135346624998671520000000000 / 97766918335001940963517722511) : ℝ) = 2 ^ 3 := by norm_num
  have hoklab7 : scrgb_to_oklab c7vec = ⟨1999999987 / 1000000000, 0, 373 / 5000000000⟩ := by
    show linear_srgb_to_oklab c7vec = _
    simp only [linear_srgb_to_oklab, c7vec]
    rw [hrow1, hrow2, hrow3, rcbrt_cube 2 (by norm_num)]
    simp only [Oklab.mk.injEq]
    norm_num
  have hluma7 : luma_oklab (⟨1999999987 / 1000000000, 0, 373 / 5000000000⟩ : Oklab) = 7999999844000001013999997803 / 1000000000000000000000000000 := by
    show (oklab_to_linear_srgb ⟨1999999987 / 1000000000, 0, 0⟩).x = _
    simp only [oklab_to_linear_srgb]
    norm_num
  have hlumc : luma_oklab (scrgb_to_oklab c7vec) = 7999999844000001013999997803 / 1000000000000000000000000000 := by
    rw [hoklab7, hluma7]
  have hW : Real.sqrt (63999997504000040559999648480001713659995544484004826809 / 214057013623011911450422191857419000000000000000000000) * Real.sqrt (63999997504000040559999648480001713659995544484004826809 / 214057013623011911450422191857419000000000000000000000) = (63999997504000040559999648480001713659995544484004826809 / 214057013623011911450422191857419000000000000000000000 : ℝ) :=
    Real.mul_self_sqrt (by norm_num)
  have hgrow1 : (0.4122214708 * (912673 / 1000000) + 0.5363325363 * (912673 / 1000000)
      + 0.0514459929 * (912673 / 1000000) : ℝ) = (97 / 100) ^ 3 := by norm_num
  have hgrow2 : (0.2119034982 * (912673 / 1000000) + 0.6806995451 * (912673 / 1000000)
      + 0.1073969566 * (912673 / 1000000) : ℝ) = (9999999999 / 10000000000) * (97 / 100) ^ 3 := by
    norm_num
  have hgrow3 : (0.0883024619 * (912673 / 1000000) + 0.2817188376 * (912673 / 1000000)
      + 0.6299787005 * (912673 / 1000000) : ℝ) = (97 / 100) ^ 3 := by norm_num
  have hlout_lo : (893 / 1000 : ℝ) ≤ oklab_l_for_luma (912673 / 1000000) := by
    simp only [oklab_l_for_luma, linear_srgb_to_oklab]
    rw [hgrow1, hgrow2, hgrow3, rcbrt_cube (97 / 100) (by norm_num),
      rcbrt_mul (by norm_num) (by positivity), rcbrt_cube (97 / 100) (by norm_num)]
    have h9 : (9 / 10 : ℝ) ≤ rcbrt (9999999999 / 10000000000) := by
      calc (9 / 10 : ℝ) = rcbrt ((9 / 10) ^ 3) :=
            (rcbrt_cube _ (by norm_num)).symm
        _ ≤ _ := rcbrt_mono (by norm_num) (by norm_num)
    linarith
  refine ⟨?_, hlumc, ?_⟩
  · show oklab_to_scrgb (scale_oklab_desat (scrgb_to_oklab c7vec)
        (luma_oklab (scrgb_to_oklab c7vec) *
          (1 + luma_oklab (scrgb_to_oklab c7vec) /
            (Real.sqrt (63999997504000040559999648480001713659995544484004826809 / 214057013623011911450422191857419000000000000000000000) * Real.sqrt (63999997504000040559999648480001713659995544484004826809 / 214057013623011911450422191857419000000000000000000000))) /
          (1 + luma_oklab (scrgb_to_oklab c7vec))) 3) = _
    rw [hlumc, hW]
    norm_num
  · rw [hoklab7]
    rw [scale_oklab_desat_of_ne _ _ _ (by norm_num), hluma7,
      scale_oklab_desat_spec_of_ne _ _ _ _ (by norm_num)]
    show (373 / 5000000000 : ℝ) * (oklab_l_for_luma (912673 / 1000000) / (1999999987 / 1000000000)) ^ ((3 : ℝ) / 3) ≠
      (373 / 5000000000 : ℝ) * ((912673 / 1000000) / (7999999844000001013999997803 / 1000000000000000000000000000)) ^ ((3 : ℝ) / 3)
    rw [show ((3 : ℝ) / 3) = 1 by norm_num, Real.rpow_one, Real.rpow_one]
    have hgap : ((912673 / 1000000) / (7999999844000001013999997803 / 1000000000000000000000000000) : ℝ) < oklab_l_for_luma (912673 / 1000000) / (1999999987 / 1000000000) := by
      have hdiv : ((893 / 1000 : ℝ) / (1999999987 / 1000000000)) ≤ oklab_l_for_luma (912673 / 1000000) / (1999999987 / 1000000000) :=
        (div_le_div_right (by norm_num)).mpr hlout_lo
      have hnum : ((912673 / 1000000) / (7999999844000001013999997803 / 1000000000000000000000000000) : ℝ) < (893 / 1000 : ℝ) / (1999999987 / 1000000000) := by norm_num
      linarith
    have hb : (0 : ℝ) < 373 / 5000000000 := by norm_num
    exact ne_of_gt (by nlinarith)


/-- Concrete out-of-gamut sample for the C1 counterexample: its oklab image
is exactly (40.9999997335, 0, 1.5293·10⁻⁶) (the forward cube roots land on
41), so its reconstructed linear color is about (68921, 68921, 68921). -/
noncomputable def c1ex : Vec3 :=
  ⟨6738193776337868607168470000000000 / 97766918335001940963517722511, 6738193780325173881218430000000000 / 97766918335001940963517722511, 6738193778092691679978740000000000 / 97766918335001940963517722511⟩

/-- The oklab image of `c1ex`. -/
noncomputable def lab1ex : Oklab := ⟨81999999467 / 2000000000, 0, 15293 / 10000000000⟩

/-- The linear reconstruction of `lab1ex` (exact). -/
noncomputable def rgb1ex : Vec3 :=
  ⟨689210047694952603445110581448828869532357071566580498955606317151972558781 / 10000000000000000000000000000000000000000000000000000000000000000000000,
    344604993296840103019078291556731444735646152238563986039009994262749997961 / 5000000000000000000000000000000000000000000000000000000000000000000000,
    689209819871561260822286223160748169387697924173159986807541812859182675761 / 10000000000000000000000000000000000000000000000000000000000000000000000⟩

/-- The maximum channel of `rgb1ex` (its red channel). -/
noncomputable def m0ex : ℝ :=
  689210047694952603445110581448828869532357071566580498955606317151972558781 / 10000000000000000000000000000000000000000000000000000000000000000000000

theorem lab1ex_eval : scrgb_to_oklab c1ex = lab1ex := by
  have hrow1 : (0.4122214708 * (6738193776337868607168470000000000 / 97766918335001940963517722511) + 0.5363325363 * (6738193780325173881218430000000000 / 97766918335001940963517722511)
      + 0.0514459929 * (6738193778092691679978740000000000 / 97766918335001940963517722511) : ℝ) = 41 ^ 3 := by norm_num
  have hrow2 : (0.2119034982 * (6738193776337868607168470000000000 / 97766918335001940963517722511) + 0.6806995451 * (6738193780325173881218430000000000 / 97766918335001940963517722511)
      + 0.1073969566 * (6738193778092691679978740000000000 / 97766918335001940963517722511) : ℝ) = 41 ^ 3 := by norm_num
  have hrow3 : (0.0883024619 * (6738193776337868607168470000000000 / 97766918335001940963517722511) + 0.2817188376 * (6738193780325173881218430000000000 / 97766918335001940963517722511)
      + 0.6299787005 * (6738193778092691679978740000000000 / 97766918335001940963517722511) : ℝ) = 41 ^ 3 := by norm_num
  show linear_srgb_to_oklab c1ex = _
  simp only [linear_srgb_to_oklab, c1ex]
  rw [hrow1, hrow2, hrow3, rcbrt_cube 41 (by norm_num)]
  simp only [lab1ex, Oklab.mk.injEq]
  norm_num

theorem rgb1ex_eval : oklab_to_scrgb lab1ex = rgb1ex := by
  show oklab_to_linear_srgb lab1ex = _
  simp only [oklab_to_linear_srgb, lab1ex, rgb1ex, Vec3.mk.injEq]
  norm_num

theorem m0ex_eval : rgb1ex.max_element = m0ex := by
  show max (689210047694952603445110581448828869532357071566580498955606317151972558781 / 10000000000000000000000000000000000000000000000000000000000000000000000 : ℝ) (max (344604993296840103019078291556731444735646152238563986039009994262749997961 / 5000000000000000000000000000000000000000000000000000000000000000000000) (689209819871561260822286223160748169387697924173159986807541812859182675761 / 10000000000000000000000000000000000000000000000000000000000000000000000)) = m0ex
  rw [show max ((344604993296840103019078291556731444735646152238563986039009994262749997961 / 5000000000000000000000000000000000000000000000000000000000000000000000) : ℝ) (689209819871561260822286223160748169387697924173159986807541812859182675761 / 10000000000000000000000000000000000000000000000000000000000000000000000) = ((344604993296840103019078291556731444735646152238563986039009994262749997961 / 5000000000000000000000000000000000000000000000000000000000000000000000) : ℝ) from max_eq_left (by norm_num)]
  rw [show max ((689210047694952603445110581448828869532357071566580498955606317151972558781 / 10000000000000000000000000000000000000000000000000000000000000000000000) : ℝ) (344604993296840103019078291556731444735646152238563986039009994262749997961 / 5000000000000000000000000000000000000000000000000000000000000000000000) = ((689210047694952603445110581448828869532357071566580498955606317151972558781 / 10000000000000000000000000000000000000000000000000000000000000000000000) : ℝ) from max_eq_left (by norm_num)]
  rfl

/-- C1 counterexample: on this out-of-gamut sample the darken search stops
by bracket collapse at scale 49/2048 and returns a color whose maximum
channel is about 0.944 — more than EPSILON = 0.001 away from 1.0 (clipping
does not change it, since every channel lies inside [0, 1]). -/
theorem C1_gamut_search_counterexample :
    c1ex.max_element > 1 ∧
    ¬ |(color_darken_oklab c1ex).max_element - 1| < EPSILON := by
  have hC : ∀ s : ℝ, 0 ≤ s →
      gamut_cmp (darken_oklab lab1ex s) = close_enough (s ^ 3 * m0ex) 1 := by
    intro s hs
    show close_enough (darken_oklab lab1ex s).max_element 1 = _
    rw [oklab_to_scrgb_scale, rgb1ex_eval,
      max_element_smul _ _ (pow_nonneg hs 3), m0ex_eval]
  have s0 : binary_search lab1ex (0) (1) darken_oklab gamut_cmp
      = binary_search lab1ex (0) (1 / 2) darken_oklab gamut_cmp := by
    rw [bs_step _ _ _ _ _ (by
      rw [close_enough_is_lt (show EPSILON ≤ (1) - (0) by norm_num [EPSILON])]
      decide)]
    rw [show gamut_cmp (darken_oklab lab1ex (((0) + (1)) / 2)) = Ordering.gt from by
      rw [hC (((0) + (1)) / 2) (by norm_num)]
      exact close_enough_is_gt (by norm_num [EPSILON, m0ex])]
    norm_num
  have s1 : binary_search lab1ex (0) (1 / 2) darken_oklab gamut_cmp
      = binary_search lab1ex (0) (1 / 4) darken_oklab gamut_cmp := by
    rw [bs_step _ _ _ _ _ (by
      rw [close_enough_is_lt (show EPSILON ≤ (1 / 2) - (0) by norm_num [EPSILON])]
      decide)]
    rw [show gamut_cmp (darken_oklab lab1ex (((0) + (1 / 2)) / 2)) = Ordering.gt from by
      rw [hC (((0) + (1 / 2)) / 2) (by norm_num)]
      exact close_enough_is_gt (by norm_num [EPSILON, m0ex])]
    norm_num
  have s2 : binary_search lab1ex (0) (1 / 4) darken_oklab gamut_cmp
      = binary_search lab1ex (0) (1 / 8) darken_oklab gamut_cmp := by
    rw [bs_step _ _ _ _ _ (by
      rw [close_enough_is_lt (show EPSILON ≤ (1 / 4) - (0) by norm_num [EPSILON])]
      decide)]
    rw [show gamut_cmp (darken_oklab lab1ex (((0) + (1 / 4)) / 2)) = Ordering.gt from by
      rw [hC (((0) + (1 / 4)) / 2) (by norm_num)]
      exact close_enough_is_gt (by norm_num [EPSILON, m0ex])]
    norm_num
  have s3 : binary_search lab1ex (0) (1 / 8) darken_oklab gamut_cmp
      = binary_search lab1ex (0) (1 / 16) darken_oklab gamut_cmp := by
    rw [bs_step _ _ _ _ _ (by
      rw [close_enough_is_lt (show EPSILON ≤ (1 / 8) - (0) by norm_num [EPSILON])]
      decide)]
    rw [show gamut_cmp (darken_oklab lab1ex (((0) + (1 / 8)) / 2)) = Ordering.gt from by
      rw [hC (((0) + (1 / 8)) / 2) (by norm_num)]
      exact close_enough_is_gt (by norm_num [EPSILON, m0ex])]
    norm_num
  have s4 : binary_search lab1ex (0) (1 / 16) darken_oklab gamut_cmp
      = binary_search lab1ex (0) (1 / 32) darken_oklab gamut_cmp := by
    rw [bs_step _ _ _ _ _ (by
      rw [close_enough_is_lt (show EPSILON ≤ (1 / 16) - (0) by norm_num [EPSILON])]
      decide)]
    rw [show gamut_cmp (darken_oklab lab1ex (((0) + (1 / 16)) / 2)) = Ordering.gt from by
      rw [hC (((0) + (1 / 16)) / 2) (by norm_num)]
      exact close_enough_is_gt (by norm_num [EPSILON, m0ex])]
    norm_num
  have s5 : binary_search lab1ex (0) (1 / 32) darken_oklab gamut_cmp
      = binary_search lab1ex (1 / 64) (1 / 32) darken_oklab gamut_cmp := by
    rw [bs_step _ _ _ _ _ (by
      rw [close_enough_is_lt (show EPSILON ≤ (1 / 32) - (0) by norm_num [EPSILON])]
      decide)]
    rw [show gamut_cmp (darken_oklab lab1ex (((0) + (1 / 32)) / 2)) = Ordering.lt from by
      rw [hC (((0) + (1 / 32)) / 2) (by norm_num)]
      exact close_enough_is_lt (by norm_num [EPSILON, m0ex])]
    norm_num
  have s6 : binary_search lab1ex (1 / 64) (1 / 32) darken_oklab gamut_cmp
      = binary_search lab1ex (3 / 128) (1 / 32) darken_oklab gamut_cmp := by
    rw [bs_step _ _ _ _ _ (by
      rw [close_enough_is_lt (show EPSILON ≤ (1 / 32) - (1 / 64) by norm_num [EPSILON])]
      decide)]
    rw [show gamut_cmp (darken_oklab lab1ex (((1 / 64) + (1 / 32)) / 2)) = Ordering.lt from by
      rw [hC (((1 / 64) + (1 / 32)) / 2) (by norm_num)]
      exact close_enough_is_lt (by norm_num [EPSILON, m0ex])]
    norm_num
  have s7 : binary_search lab1ex (3 / 128) (1 / 32) darken_oklab gamut_cmp
      = binary_search lab1ex (3 / 128) (7 / 256) darken_oklab gamut_cmp := by
    rw [bs_step _ _ _ _ _ (by
      rw [close_enough_is_lt (show EPSILON ≤ (1 / 32) - (3 / 128) by norm_num [EPSILON])]
      decide)]
    rw [show gamut_cmp (darken_oklab lab1ex (((3 / 128) + (1 / 32)) / 2)) = Ordering.gt from by
      rw [hC (((3 / 128) + (1 / 32)) / 2) (by norm_num)]
      exact close_enough_is_gt (by norm_num [EPSILON, m0ex])]
    norm_num
  have s8 : binary_search lab1ex (3 / 128) (7 / 256) darken_oklab gamut_cmp
      = binary_search lab1ex (3 / 128) (13 / 512) darken_oklab gamut_cmp := by
    rw [bs_step _ _ _ _ _ (by
      rw [close_enough_is_lt (show EPSILON ≤ (7 / 256) - (3 / 128) by norm_num [EPSILON])]
      decide)]
    rw [show gamut_cmp (darken_oklab lab1ex (((3 / 128) + (7 / 256)) / 2)) = Ordering.gt from by
      rw [hC (((3 / 128) + (7 / 256)) / 2) (by norm_num)]
      exact close_enough_is_gt (by norm_num [EPSILON, m0ex])]
    norm_num
  have s9 : binary_search lab1ex (3 / 128) (13 / 512) darken_oklab gamut_cmp
      = binary_search lab1ex (3 / 128) (25 / 1024) darken_oklab gamut_cmp := by
    rw [bs_step _ _ _ _ _ (by
      rw [close_enough_is_lt (show EPSILON ≤ (13 / 512) - (3 / 128) by norm_num [EPSILON])]
      decide)]
    rw [show gamut_cmp (darken_oklab lab1ex (((3 / 128) + (13 / 512)) / 2)) = Ordering.gt from by
      rw [hC (((3 / 128) + (13 / 512)) / 2) (by norm_num)]
      exact close_enough_is_gt (by norm_num [EPSILON, m0ex])]
    norm_num
  have sF : binary_search lab1ex (3 / 128) (25 / 1024) darken_oklab gamut_cmp
      = darken_oklab lab1ex (49 / 2048) := by
    rw [bs_stop _ _ _ _ _ ((close_enough_eq_iff _ _).mpr (by
      rw [abs_of_nonpos (by norm_num)]
      norm_num [EPSILON]))]
    norm_num
  have hsearch : binary_search lab1ex 0 1 darken_oklab gamut_cmp
      = darken_oklab lab1ex (49 / 2048) := by
    rw [s0, s1, s2, s3, s4, s5, s6, s7, s8, s9, sF]
  have hmaxin : c1ex.max_element > 1 := by
    show (1 : ℝ) < max (6738193776337868607168470000000000 / 97766918335001940963517722511) (max (6738193780325173881218430000000000 / 97766918335001940963517722511) (6738193778092691679978740000000000 / 97766918335001940963517722511))
    exact lt_of_lt_of_le (by norm_num) (le_max_left _ _)
  have hout : color_darken_oklab c1ex = clip (darken_oklab lab1ex (49 / 2048)) := by
    unfold color_darken_oklab
    rw [if_pos hmaxin, lab1ex_eval, hsearch]
  have hval : darken_oklab lab1ex (49 / 2048)
      = Vec3.smul ((49 / 2048 : ℝ) ^ 3) rgb1ex := by
    rw [oklab_to_scrgb_scale, rgb1ex_eval]
  have hclip : clip (Vec3.smul ((49 / 2048 : ℝ) ^ 3) rgb1ex)
      = Vec3.smul ((49 / 2048 : ℝ) ^ 3) rgb1ex := by
    simp only [Vec3.smul, rgb1ex, clip, Vec3.mk.injEq]
    refine ⟨?_, ?_, ?_⟩ <;>
      rw [max_eq_left (by norm_num), min_eq_left (by norm_num)]
  have hmaxfin : (Vec3.smul ((49 / 2048 : ℝ) ^ 3) rgb1ex).max_element
      = (49 / 2048 : ℝ) ^ 3 * m0ex := by
    rw [max_element_smul _ _ (by norm_num), m0ex_eval]
  refine ⟨hmaxin, ?_⟩
  rw [hout, hval, hclip, hmaxfin]
  rw [abs_of_nonpos (by norm_num [m0ex])]
  norm_num [EPSILON, m0ex]

end Hdrfix
